import Mathlib

/-! CAN duplex transport: raw frames and ISO-TP.

A shallow embedding of `can_example/can_communication.c` and
`can_example/cantp_communication.c`.

* Pure code (building a `struct can_frame`, the chunk arithmetic) is embedded
  as Lean functions.
* System calls are embedded by explicit state passing over a `World`: the
  results the kernel hands back (`write`, `read`, `select`, `send`, the value
  seen by each read of the volatile `running` flag) are streams owned by the
  environment, and every call appends one `Event` to the trace.
* `size_t` / `int32_t` values are `Nat` / `Int`.  No arithmetic of the two
  programs can wrap: `can_dlc` is at most 8, `offset + chunk_len` never
  exceeds `msg_len`, and `nbytes` is only compared.
-/

/-- An octet (`uint8_t`). -/
abbrev uint8_t := Fin 256

/-- The part of `struct can_frame` (linux/can.h) the programs touch:
`can_id` (`canid_t`, 32 bit), `can_dlc` (`__u8`) and `data[8]`.
`data` is a list; `memset` and `memcpy` below keep it 8 long. -/
structure can_frame where
  can_id : Nat
  can_dlc : Nat
  data : List uint8_t
deriving DecidableEq, Repr

/-- The value of `sizeof(struct can_frame)` in linux/can.h: 4 bytes of identifier, 1 of
length, 3 of padding and reserved fields, 8 of data. -/
def sizeof_can_frame : Int := 16

/-- The size of the array `data` in `struct can_frame` (`CAN_MAX_DLEN`). -/
def CAN_MAX_DLEN : Nat := 8

/-- The frame after `memset(&frame, 0, sizeof(frame))`. -/
def zero_frame : can_frame :=
  { can_id := 0, can_dlc := 0, data := List.replicate CAN_MAX_DLEN 0 }

/-- The array `dst` after `memcpy(dst, src, n)`: the first `n` bytes come from `src`,
the rest of `dst` is unchanged.  (C requires `n` bytes to be readable at `src`.) -/
def memcpy (dst src : List uint8_t) (n : Nat) : List uint8_t :=
  src.take n ++ dst.drop n

/-- The read `frame.data[i]` as a total function: `none` is an access outside the
array. -/
def data_at (frame : can_frame) (i : Nat) : Option uint8_t :=
  frame.data[i]?

/-- The bytes fetched by `for (i = 0; i < frame.can_dlc; i++) printf(.., frame.data[i])`,
in order. -/
def printed_data (frame : can_frame) : List (Option uint8_t) :=
  (List.range frame.can_dlc).map (data_at frame)

/-- Lines 115-120 of `send_can_frame`: the frame that is handed to `write`.
`data` is the memory at the pointer argument, `len` the length argument. -/
def build_frame (can_id : Nat) (data : List uint8_t) (len : Nat) : can_frame :=
  let frame := zero_frame
  let frame := { frame with can_id := can_id }
  let frame := { frame with can_dlc := if len > 8 then 8 else len }
  { frame with data := memcpy frame.data data frame.can_dlc }

/-- The valid payload of a frame: its first `can_dlc` data bytes. -/
def payload (frame : can_frame) : List uint8_t :=
  frame.data.take frame.can_dlc

/-! ## The environment -/

/-- What the programs do to the outside world, one constructor per call site kind. -/
inductive Event where
  /-- A read of the volatile global `running`; `v` says whether it was non-zero. -/
  | read_running (v : Bool)
  /-- The line "Sending CAN frame: ID=.., DLC=.., Data=.." of `send_can_frame`. -/
  | print_sending (can_id dlc : Nat) (bytes : List (Option uint8_t))
  /-- The call `write(sock, &frame, sizeof(frame))` and its result. -/
  | write (sock : Int) (frame : can_frame) (nbytes : Int)
  /-- The call `read(sock, &frame, sizeof(frame))` and its result. -/
  | read (sock : Int) (nbytes : Int)
  /-- The line "Received CAN frame: ID=.., DLC=.., Data=.." of `receive_can_frame`. -/
  | print_received (can_id dlc : Nat) (bytes : List (Option uint8_t))
  /-- The line "Incomplete CAN frame received: .. bytes". -/
  | print_incomplete (nbytes : Int)
  /-- A call of `perror` with the given text. -/
  | perror (msg : String)
  /-- A call of `printf` with a constant text. -/
  | printf (msg : String)
  /-- The call `sleep(seconds)`. -/
  | sleep (seconds : Nat)
  /-- The call `usleep(usec)`. -/
  | usleep (usec : Nat)
  /-- The call `select(sock + 1, &read_fds, NULL, NULL, &tv)` with a timeout of
  `timeout_sec` seconds, its result, and `FD_ISSET(sock, &read_fds)` afterwards. -/
  | select (sock : Int) (timeout_sec : Nat) (ret : Int) (isset : Bool)
  /-- The call `send(sock, payload, len, 0)` of the ISO-TP program and its result. -/
  | send (sock : Int) (bytes : List uint8_t) (nbytes : Int)
  /-- The line "Sent CAN-TP message (.. bytes): .." with the bytes it previews. -/
  | print_sent (len : Nat) (bytes : List uint8_t)
deriving DecidableEq, Repr

/-- The state threaded through the two tasks: the global `socket_fd`, what the
environment will answer to the calls still to come (index 0 is the next call of that
kind), and the trace of what has been done so far. -/
structure World where
  socket_fd : Int
  running : Nat → Bool
  write_ret : Nat → Int
  read_ret : Nat → Int × can_frame
  select_ret : Nat → Int × Bool
  send_ret : Nat → Int
  trace : List Event

/-- Append one event to the trace. -/
def World.emit (w : World) (e : Event) : World :=
  { w with trace := w.trace ++ [e] }

/-- One evaluation of the expression `running`. -/
def read_running (w : World) : Bool × World :=
  let v := w.running 0
  (v, { w with running := fun i => w.running (i + 1),
               trace := w.trace ++ [Event.read_running v] })

/-- The call `write(sock, &frame, sizeof(frame))`. -/
def sys_write (w : World) (sock : Int) (frame : can_frame) : Int × World :=
  let nbytes := w.write_ret 0
  (nbytes, { w with write_ret := fun i => w.write_ret (i + 1),
                    trace := w.trace ++ [Event.write sock frame nbytes] })

/-- The call `read(sock, &frame, sizeof(frame))`: the result and the memory of
`frame` afterwards.  The frame is not part of the event: the trace only shows what
the program does with it. -/
def sys_read (w : World) (sock : Int) : (Int × can_frame) × World :=
  let r := w.read_ret 0
  (r, { w with read_ret := fun i => w.read_ret (i + 1),
               trace := w.trace ++ [Event.read sock r.1] })

/-- The calls `FD_ZERO`, `FD_SET`, `select` and the later `FD_ISSET` of the
select-based receiver. -/
def sys_select (w : World) (sock : Int) (timeout_sec : Nat) : (Int × Bool) × World :=
  let r := w.select_ret 0
  (r, { w with select_ret := fun i => w.select_ret (i + 1),
               trace := w.trace ++ [Event.select sock timeout_sec r.1 r.2] })

/-- The call `send(sock, bytes, len, 0)` on the ISO-TP socket. -/
def sys_send (w : World) (sock : Int) (bytes : List uint8_t) : Int × World :=
  let nbytes := w.send_ret 0
  (nbytes, { w with send_ret := fun i => w.send_ret (i + 1),
                    trace := w.trace ++ [Event.send sock bytes nbytes] })

/-! ## can_communication.c: the frame codec -/

namespace can_communication

/-- Send CAN frame with specified data (`send_can_frame`).  `data` is the memory at
the pointer argument.  The comparison `nbytes != sizeof(frame)` converts the
`int32_t` to `size_t`; a negative `nbytes` becomes a huge value, never 16, so the
comparison agrees with the one on integers. -/
def send_can_frame (w : World) (sock : Int) (can_id : Nat) (data : List uint8_t)
    (len : Nat) : Int × World :=
  let frame := build_frame can_id data len
  let w := w.emit (Event.print_sending frame.can_id frame.can_dlc (printed_data frame))
  let (nbytes, w) := sys_write w sock frame
  if nbytes ≠ sizeof_can_frame then
    (-1, w.emit (Event.perror "Failed to send CAN frame"))
  else
    (0, w)

/-- Receive and print CAN frame (`receive_can_frame`). -/
def receive_can_frame (w : World) (sock : Int) : Int × World :=
  let ((nbytes, frame), w) := sys_read w sock
  if nbytes < 0 then
    (-1, w.emit (Event.perror "Failed to receive CAN frame"))
  else if nbytes = sizeof_can_frame then
    (0, w.emit (Event.print_received frame.can_id frame.can_dlc (printed_data frame)))
  else
    (-1, w.emit (Event.print_incomplete nbytes))

end can_communication

/-! ## C strings -/

/-- A C string (`const char *`) by its bytes before the terminating NUL; none of
them is NUL. -/
structure c_string where
  bytes : List uint8_t
  no_nul : ∀ b ∈ bytes, b ≠ 0

/-- The memory a `c_string` points to: its bytes and the terminating NUL. -/
def c_string.mem (s : c_string) : List uint8_t :=
  s.bytes ++ [0]

/-- The scan of `strlen` over memory: the number of bytes before the first NUL. -/
def strlen_mem : List uint8_t → Nat
  | [] => 0
  | b :: rest => if b = 0 then 0 else strlen_mem rest + 1

/-- The C library's `strlen`. -/
def strlen (s : c_string) : Nat :=
  strlen_mem s.mem

/-! ## can_communication.c: the two tasks -/

namespace can_communication

/-- The macro `USE_CAN_FILTER`: 1 filters for can_id 0x123, 0 takes all frames. -/
def USE_CAN_FILTER : Bool := true

/-- The macro `USE_BLOCKING_READ`: 1 for blocking read, 0 for select-based read. -/
def USE_BLOCKING_READ : Bool := false

/-- The body of the inner loop of `send_thread` (lines 169-173) at the given
`offset`: one call of `send_can_frame` on the pointer `message + offset`, which is the
memory of the message from `offset` on.  Returns the new `offset`. -/
def send_chunk (message : c_string) (msg_len can_id offset : Nat) (w : World) : Nat × World :=
  let chunk_len := if msg_len - offset > 8 then 8 else msg_len - offset
  let (ret, w) := send_can_frame w w.socket_fd can_id (message.mem.drop offset) chunk_len
  let w := if ret < 0 then w.emit (Event.printf "Send error in thread, continuing") else w
  (offset + chunk_len, w)

/-- The inner loop of `send_thread` (lines 168-174), entered with the given `offset`:
`while (offset < msg_len && running) { .. }`.  `&&` reads `running` only when
`offset < msg_len`.  The loop ends because every turn moves `offset` forward. -/
def send_chunks (message : c_string) (msg_len can_id offset : Nat) (w : World) : World :=
  if offset < msg_len then
    let r := read_running w
    if r.1 then
      let s := send_chunk message msg_len can_id offset r.2
      send_chunks message msg_len can_id s.1 s.2
    else
      r.2
  else
    w
termination_by msg_len - offset
decreasing_by
  simp only [send_chunk]
  split <;> omega

/-- One turn of the outer loop of `send_thread` (lines 167-175): the chunking loop
from offset 0, then `sleep(1)`. -/
def send_message (message : c_string) (msg_len can_id : Nat) (w : World) : World :=
  let offset := 0
  let w := send_chunks message msg_len can_id offset w
  w.emit (Event.sleep 1)

/-- The outer loop `while (running) { .. }` of `send_thread`, for at most `fuel`
evaluations of its condition.  The flag says whether the loop was left (the task
returned); it is `false` when the fuel ran out first. -/
def send_loop (message : c_string) (msg_len can_id : Nat) : Nat → World → World × Bool
  | 0, w => (w, false)
  | fuel + 1, w =>
    let (r, w) := read_running w
    if r then
      send_loop message msg_len can_id fuel (send_message message msg_len can_id w)
    else
      (w, true)

/-- Sending thread function (`send_thread`), with the message as a parameter; the
source sends `demo_message`. -/
def send_thread (message : c_string) (fuel : Nat) (w : World) : World × Bool :=
  let msg_len := strlen message
  let can_id := 0x123
  send_loop message msg_len can_id fuel w

/-- The body of the select-based loop of `receive_thread` (lines 194-208). -/
def receive_select (w : World) : World :=
  let ((ret, isset), w) := sys_select w w.socket_fd 1
  if ret < 0 then
    w.emit (Event.perror "Select error in receive thread")
  else if ret > 0 ∧ isset then
    let (r, w) := receive_can_frame w w.socket_fd
    if r = 0 then w.emit (Event.printf "Successfully received a frame") else w
  else
    w

/-- The body of the blocking loop of `receive_thread` (lines 186-189). -/
def receive_blocking (w : World) : World :=
  let (r, w) := receive_can_frame w w.socket_fd
  let w := if r = 0 then w.emit (Event.printf "Successfully received a frame") else w
  w.emit (Event.usleep 10000)

/-- Receiving thread function (`receive_thread`): `while (running) { .. }` around
the body chosen by `USE_BLOCKING_READ`, for at most `fuel` evaluations of the loop
condition.  The flag says whether the task returned. -/
def receive_thread : Nat → World → World × Bool
  | 0, w => (w, false)
  | fuel + 1, w =>
    let (r, w) := read_running w
    if r then
      receive_thread fuel (if USE_BLOCKING_READ then receive_blocking w else receive_select w)
    else
      (w, true)

set_option maxRecDepth 8192 in
/-- The message of `send_thread`: "hello world hello can". -/
def demo_message : c_string :=
  ⟨[104, 101, 108, 108, 111, 32, 119, 111, 114, 108, 100, 32,
    104, 101, 108, 108, 111, 32, 99, 97, 110], by decide⟩

end can_communication

/-- The frames handed to `write`, in order. -/
def written_frames : List Event → List can_frame
  | [] => []
  | Event.write _ frame _ :: rest => frame :: written_frames rest
  | _ :: rest => written_frames rest

/-- A world whose flag stays set and whose calls all succeed: every `write` reports
a full frame, every `select` a timeout. -/
def quiet_world : World :=
  { socket_fd := 3, running := fun _ => true, write_ret := fun _ => 16,
    read_ret := fun _ => (16, zero_frame), select_ret := fun _ => (0, false),
    send_ret := fun _ => 100, trace := [] }

namespace cantp_communication

/-- The array `cantp_payload` after the fill loop: byte `i` is `(uint8_t)i`, for
`i` below 100. -/
def cantp_payload : List uint8_t :=
  (List.range 100).map (fun i => (⟨i % 256, Nat.mod_lt i (by decide)⟩ : uint8_t))

/-- The body of the loop of `send_thread` (lines 105-115): one `send` of the whole
payload, a line of output either way, then `sleep(1)`. -/
def send_once (msg_len : Nat) (w : World) : World :=
  let (nbytes, w) := sys_send w w.socket_fd (cantp_payload.take msg_len)
  let w :=
    if nbytes < 0 then
      w.emit (Event.perror "Failed to send CAN-TP message")
    else
      w.emit (Event.print_sent msg_len (cantp_payload.take (min msg_len 16)))
  w.emit (Event.sleep 1)

/-- The loop `while (running) { .. }` of `send_thread`, for at most `fuel`
evaluations of its condition; the flag says whether the task returned. -/
def send_loop (msg_len : Nat) : Nat → World → World × Bool
  | 0, w => (w, false)
  | fuel + 1, w =>
    let (r, w) := read_running w
    if r then send_loop msg_len fuel (send_once msg_len w) else (w, true)

/-- Sending thread function (`send_thread`) of the ISO-TP program. -/
def send_thread (fuel : Nat) (w : World) : World × Bool :=
  let msg_len := cantp_payload.length
  send_loop msg_len fuel w

end cantp_communication

/-- The payloads handed to `send`, in order. -/
def sent_messages : List Event → List (List uint8_t)
  | [] => []
  | Event.send _ bytes _ :: rest => bytes :: sent_messages rest
  | _ :: rest => sent_messages rest

/-! ## Setup and `main` -/

/-- The calls of the two setup functions that can fail. -/
inductive Step where
  /-- The call `socket(PF_CAN, ..)`. -/
  | socket
  /-- The call `setsockopt(.., SOL_SOCKET, SO_RCVBUF, ..)` with 1048576. -/
  | rcvbuf
  /-- The call `setsockopt(.., SOL_CAN_ISOTP, CAN_ISOTP_RECV_FC, ..)`. -/
  | fc_options
  /-- The call `ioctl(.., SIOCGIFINDEX, ..)`. -/
  | ifindex
  /-- The call `bind`. -/
  | bind
  /-- The call `setsockopt(.., SOL_CAN_RAW, CAN_RAW_FILTER, ..)`. -/
  | filter
  /-- The call `setsockopt(.., SOL_CAN_RAW, CAN_RAW_LOOPBACK, ..)`. -/
  | loopback
deriving DecidableEq, Repr

/-- The two tasks `main` creates. -/
inductive Thread where
  | send_tid
  | receive_tid
deriving DecidableEq, Repr

/-- What `main` and the setup functions do, in order. -/
inductive MainEvent where
  /-- A call `signal(sig, signal_handler)`. -/
  | signal (sig : String)
  /-- A call of `printf` with a constant text. -/
  | printf (msg : String)
  /-- A call `system(cmd)`. -/
  | system (cmd : String)
  /-- One of the setup calls and its result. -/
  | call (step : Step) (ret : Int)
  /-- A call of `perror` with the given text. -/
  | perror (msg : String)
  /-- The call `close(fd)`. -/
  | close (fd : Int)
  /-- The call `pthread_create` for a task and its result. -/
  | pthread_create (task : Thread) (ret : Int)
  /-- The call `pthread_join` for a task. -/
  | pthread_join (task : Thread)
  /-- The assignment `running = 0`. -/
  | clear_running
deriving DecidableEq, Repr

/-- What the environment answers to `main`: the result of every setup call and of
the two `pthread_create` calls. -/
structure Outcomes where
  step : Step → Int
  create_send : Int
  create_receive : Int

/-- The state of the main thread: the global `socket_fd` and the trace so far. -/
structure Proc where
  socket_fd : Int
  trace : List MainEvent

/-- The state at program start: `socket_fd = -1`, nothing done. -/
def Proc.init : Proc :=
  { socket_fd := -1, trace := [] }

/-- Append one event to the trace. -/
def Proc.emit (p : Proc) (e : MainEvent) : Proc :=
  { p with trace := p.trace ++ [e] }

/-- One setup call: its result is the environment's, and it is recorded. -/
def Proc.call (p : Proc) (o : Outcomes) (s : Step) : Int × Proc :=
  (o.step s, p.emit (MainEvent.call s (o.step s)))

namespace can_communication

/-- Initialize CAN socket (`init_can_socket`). -/
def init_can_socket (o : Outcomes) (p : Proc) : Int × Proc :=
  let (fd, p) := p.call o Step.socket
  let p : Proc := { p with socket_fd := fd }
  if p.socket_fd < 0 then
    (-1, p.emit (MainEvent.perror "Failed to create CAN socket"))
  else
  let (ret, p) := p.call o Step.rcvbuf
  if ret < 0 then
    (-1, (p.emit (MainEvent.perror "Failed to set receive buffer size")).emit
      (MainEvent.close p.socket_fd))
  else
  let (ret, p) := p.call o Step.ifindex
  if ret < 0 then
    (-1, (p.emit (MainEvent.perror "Failed to get CAN interface index")).emit
      (MainEvent.close p.socket_fd))
  else
  let (ret, p) := p.call o Step.bind
  if ret < 0 then
    (-1, (p.emit (MainEvent.perror "Failed to bind CAN socket")).emit
      (MainEvent.close p.socket_fd))
  else
  let (ret, p) := p.call o Step.filter
  if ret < 0 then
    (-1, (p.emit (MainEvent.perror
        (if USE_CAN_FILTER then "Failed to set CAN filter"
         else "Failed to disable CAN filters"))).emit
      (MainEvent.close p.socket_fd))
  else
  let (ret, p) := p.call o Step.loopback
  if ret < 0 then
    (-1, (p.emit (MainEvent.perror "Failed to disable CAN loopback")).emit
      (MainEvent.close p.socket_fd))
  else
    (0, p)

/-- The function `main` of can_communication.c: its exit status and final state. -/
def main (o : Outcomes) : Int × Proc :=
  let p := Proc.init
  let p := p.emit (MainEvent.signal "SIGINT")
  let p := p.emit (MainEvent.signal "SIGTERM")
  let p := p.emit (MainEvent.printf "Setting up CAN interface: can0")
  let p := p.emit (MainEvent.system "sudo ip link set can0 type can bitrate 100000")
  let p := p.emit (MainEvent.system "sudo ip link set can0 up")
  let (r, p) := init_can_socket o p
  if r < 0 then
    (1, p.emit (MainEvent.system "sudo ip link set can0 down"))
  else
  let p := p.emit (MainEvent.pthread_create Thread.send_tid o.create_send)
  if o.create_send ≠ 0 then
    let p := p.emit (MainEvent.perror "Failed to create send thread")
    let p := p.emit (MainEvent.close p.socket_fd)
    (1, p.emit (MainEvent.system "sudo ip link set can0 down"))
  else
  let p := p.emit (MainEvent.pthread_create Thread.receive_tid o.create_receive)
  if o.create_receive ≠ 0 then
    let p := p.emit (MainEvent.perror "Failed to create receive thread")
    let p := p.emit MainEvent.clear_running
    let p := p.emit (MainEvent.pthread_join Thread.send_tid)
    let p := p.emit (MainEvent.close p.socket_fd)
    (1, p.emit (MainEvent.system "sudo ip link set can0 down"))
  else
  let p := p.emit (MainEvent.pthread_join Thread.send_tid)
  let p := p.emit (MainEvent.pthread_join Thread.receive_tid)
  let p := p.emit (MainEvent.close p.socket_fd)
  let p := p.emit (MainEvent.system "sudo ip link set can0 down")
  (0, p.emit (MainEvent.printf "CAN communication stopped"))

end can_communication

namespace cantp_communication

/-- Initialize ISO-TP socket (`init_isotp_socket`). -/
def init_isotp_socket (o : Outcomes) (p : Proc) : Int × Proc :=
  let (fd, p) := p.call o Step.socket
  let p : Proc := { p with socket_fd := fd }
  if p.socket_fd < 0 then
    (-1, p.emit (MainEvent.perror "Failed to create ISO-TP socket"))
  else
  let (ret, p) := p.call o Step.rcvbuf
  if ret < 0 then
    (-1, (p.emit (MainEvent.perror "Failed to set receive buffer size")).emit
      (MainEvent.close p.socket_fd))
  else
  let (ret, p) := p.call o Step.fc_options
  if ret < 0 then
    (-1, (p.emit (MainEvent.perror "Failed to set flow control options")).emit
      (MainEvent.close p.socket_fd))
  else
  let (ret, p) := p.call o Step.ifindex
  if ret < 0 then
    (-1, (p.emit (MainEvent.perror "Failed to get CAN interface index")).emit
      (MainEvent.close p.socket_fd))
  else
  let (ret, p) := p.call o Step.bind
  if ret < 0 then
    (-1, (p.emit (MainEvent.perror "Failed to bind ISO-TP socket")).emit
      (MainEvent.close p.socket_fd))
  else
    (0, p)

/-- The function `main` of cantp_communication.c: its exit status and final state. -/
def main (o : Outcomes) : Int × Proc :=
  let p := Proc.init
  let p := p.emit (MainEvent.signal "SIGINT")
  let p := p.emit (MainEvent.signal "SIGTERM")
  let p := p.emit (MainEvent.printf "Setting up CAN interface: can0")
  let p := p.emit (MainEvent.system "sudo ip link set can0 type can bitrate 100000")
  let p := p.emit (MainEvent.system "sudo ip link set can0 up")
  let (r, p) := init_isotp_socket o p
  if r < 0 then
    (1, p.emit (MainEvent.system "sudo ip link set can0 down"))
  else
  let p := p.emit (MainEvent.pthread_create Thread.send_tid o.create_send)
  if o.create_send ≠ 0 then
    let p := p.emit (MainEvent.perror "Failed to create send thread")
    let p := p.emit (MainEvent.close p.socket_fd)
    (1, p.emit (MainEvent.system "sudo ip link set can0 down"))
  else
  let p := p.emit (MainEvent.pthread_create Thread.receive_tid o.create_receive)
  if o.create_receive ≠ 0 then
    let p := p.emit (MainEvent.perror "Failed to create receive thread")
    let p := p.emit MainEvent.clear_running
    let p := p.emit (MainEvent.pthread_join Thread.send_tid)
    let p := p.emit (MainEvent.close p.socket_fd)
    (1, p.emit (MainEvent.system "sudo ip link set can0 down"))
  else
  let p := p.emit (MainEvent.pthread_join Thread.send_tid)
  let p := p.emit (MainEvent.pthread_join Thread.receive_tid)
  let p := p.emit (MainEvent.close p.socket_fd)
  let p := p.emit (MainEvent.system "sudo ip link set can0 down")
  (0, p.emit (MainEvent.printf "CAN-TP communication stopped"))

end cantp_communication

/-- The setup calls attempted, in order. -/
def attempted : List MainEvent → List Step
  | [] => []
  | MainEvent.call s _ :: rest => s :: attempted rest
  | _ :: rest => attempted rest

/-- The descriptors closed, in order. -/
def closes : List MainEvent → List Int
  | [] => []
  | MainEvent.close fd :: rest => fd :: closes rest
  | _ :: rest => closes rest

/-- The texts passed to `perror`, in order. -/
def perrors : List MainEvent → List String
  | [] => []
  | MainEvent.perror msg :: rest => msg :: perrors rest
  | _ :: rest => perrors rest

/-- The setup calls of `init_can_socket` in program order. -/
def can_steps : List Step :=
  [Step.socket, Step.rcvbuf, Step.ifindex, Step.bind, Step.filter, Step.loopback]

/-- The setup calls of `init_isotp_socket` in program order. -/
def isotp_steps : List Step :=
  [Step.socket, Step.rcvbuf, Step.fc_options, Step.ifindex, Step.bind]

/-- All setup calls succeed, both task creations too. -/
def all_ok : Outcomes :=
  { step := fun _ => 0, create_send := 0, create_receive := 0 }

/-- Outcomes like `all_ok` but with the given setup call failing; `socket` returns
descriptor 3 when it succeeds. -/
def failing_at (s : Step) : Outcomes :=
  { step := fun t => if t = s then -1 else if t = Step.socket then 3 else 0,
    create_send := 0, create_receive := 0 }

/-- The frames one turn of the outer loop of the raw-mode `send_thread` hands to
`write` when the flag stays set and every write succeeds. -/
def pass_frames (message : c_string) : List can_frame :=
  written_frames
    (can_communication.send_message message (strlen message) 0x123 quiet_world).trace

/-! ## Observations on a task's trace -/

/-- Whether the event is a read of `running`, that is a check of a loop condition. -/
def Event.is_flag_read : Event → Bool
  | Event.read_running _ => true
  | _ => false

/-- Whether the event is a system call that can block the task: `write`, `read`,
`select`, `sleep`, `usleep` or `send`. -/
def Event.is_call : Event → Bool
  | Event.write _ _ _ => true
  | Event.read _ _ => true
  | Event.select _ _ _ _ => true
  | Event.sleep _ => true
  | Event.usleep _ => true
  | Event.send _ _ _ => true
  | _ => false

/-- Whether the event is a call of `select`. -/
def Event.is_select : Event → Bool
  | Event.select _ _ _ _ => true
  | _ => false

/-- Whether the event is a call of `read`. -/
def Event.is_read : Event → Bool
  | Event.read _ _ => true
  | _ => false

/-- The events after the last read of `running` in a trace (all of it when there is
none): what the task did since it last looked at the flag. -/
def since_last_check (t : List Event) : List Event :=
  (t.reverse.takeWhile (fun e => !e.is_flag_read)).reverse

/-- The flag, once seen cleared, is seen cleared by every later read: `running` is
never set again. -/
def never_reset (running : Nat → Bool) : Prop :=
  ∀ i, running i = false → running (i + 1) = false

/-- A world like `quiet_world` whose flag is seen set by the first `n` reads and
cleared by all later ones. -/
def world_cleared_after (n : Nat) : World :=
  { quiet_world with running := fun i => decide (i < n) }

/-- A world like `quiet_world` whose first `select` reports the socket readable and
whose first `read` then delivers only 5 bytes. -/
def short_read_world : World :=
  { quiet_world with
    select_ret := fun i => if i = 0 then (1, true) else (0, false),
    read_ret := fun _ => (5, zero_frame) }

/-- A world like `quiet_world` in which every `write` and every `send` fails. -/
def all_fail_world : World :=
  { quiet_world with write_ret := fun _ => -1, send_ret := fun _ => -1 }

/-- The first setup call, in program order, whose result is negative. -/
def first_failure (steps : List Step) (o : Outcomes) : Option Step :=
  steps.find? (fun s => decide (o.step s < 0))

/-- The setup calls made when the one at `s` is the first to fail: those before it
and `s` itself. -/
def up_to (steps : List Step) (s : Step) : List Step :=
  steps.takeWhile (fun t => decide (t ≠ s)) ++ [s]

/-- The text `init_can_socket` passes to `perror` in the failure branch of each of
its setup calls. -/
def can_message : Step → String
  | Step.socket => "Failed to create CAN socket"
  | Step.rcvbuf => "Failed to set receive buffer size"
  | Step.ifindex => "Failed to get CAN interface index"
  | Step.bind => "Failed to bind CAN socket"
  | Step.filter => "Failed to set CAN filter"
  | Step.loopback => "Failed to disable CAN loopback"
  | Step.fc_options => ""

/-- The text `init_isotp_socket` passes to `perror` in the failure branch of each of
its setup calls. -/
def isotp_message : Step → String
  | Step.socket => "Failed to create ISO-TP socket"
  | Step.rcvbuf => "Failed to set receive buffer size"
  | Step.fc_options => "Failed to set flow control options"
  | Step.ifindex => "Failed to get CAN interface index"
  | Step.bind => "Failed to bind ISO-TP socket"
  | Step.filter => ""
  | Step.loopback => ""

/-- Whether the event is a call of `close`. -/
def MainEvent.is_close : MainEvent → Bool
  | MainEvent.close _ => true
  | _ => false

/-- The events before the first `close` of a trace (all of it when there is none). -/
def before_first_close (t : List MainEvent) : List MainEvent :=
  t.takeWhile (fun e => !e.is_close)

/-- Outcomes like `all_ok`, with `socket` returning descriptor 3 and the creation of
the receiving task failing with the given error number. -/
def receiver_fails (err : Int) : Outcomes :=
  { step := fun t => if t = Step.socket then 3 else 0,
    create_send := 0, create_receive := err }

/-- The events before the first read of `running` that sees it cleared (all of the
trace when there is none). -/
def before_cleared (t : List Event) : List Event :=
  t.takeWhile (fun e => decide (e ≠ Event.read_running false))

/-- The events of one turn of the chunk loop of `send_thread`, that is of one call of
`send_can_frame` with the descriptor `sock`, building `frame`, whose `write` returns
`nbytes`: the "Sending" line, the `write`, and on a short or failed write the two
error lines. -/
def send_call_events (sock : Int) (frame : can_frame) (nbytes : Int) : List Event :=
  [Event.print_sending frame.can_id frame.can_dlc (printed_data frame),
   Event.write sock frame nbytes]
    ++ (if nbytes = sizeof_can_frame then []
        else [Event.perror "Failed to send CAN frame",
              Event.printf "Send error in thread, continuing"])

/-- The events of one call of `receive_can_frame` from `receive_thread`, when `read`
returns `nbytes` and leaves `frame` in memory: the `read`, the line that reports its
outcome, and the success line after a full frame. -/
def receive_call_events (sock : Int) (nbytes : Int) (frame : can_frame) : List Event :=
  if nbytes < 0 then
    [Event.read sock nbytes, Event.perror "Failed to receive CAN frame"]
  else if nbytes = sizeof_can_frame then
    [Event.read sock nbytes,
     Event.print_received frame.can_id frame.can_dlc (printed_data frame),
     Event.printf "Successfully received a frame"]
  else
    [Event.read sock nbytes, Event.print_incomplete nbytes]

/-- The events of one turn of the select-based loop of `receive_thread`: the `select`
with its 1 s timeout, then the error line, one call of `receive_can_frame`, or
nothing. -/
def select_turn_events (sock : Int) (ret : Int) (isset : Bool) (nbytes : Int)
    (frame : can_frame) : List Event :=
  Event.select sock 1 ret isset ::
    (if ret < 0 then [Event.perror "Select error in receive thread"]
     else if 0 < ret ∧ isset = true then receive_call_events sock nbytes frame
     else [])

/-- What the raw-mode `send_thread` can have done between two consecutive checks of
the flag: nothing, the inter-message `sleep(1)`, one call of `send_can_frame`, or one
call of `send_can_frame` followed by the `sleep(1)`. -/
def tx_between_checks (W : List Event) : Prop :=
  W = [] ∨ W = [Event.sleep 1] ∨
  ∃ (sock : Int) (frame : can_frame) (nbytes : Int),
    W = send_call_events sock frame nbytes ∨
    W = send_call_events sock frame nbytes ++ [Event.sleep 1]

/-- What the select-based `receive_thread` can have done between two consecutive
checks of the flag: one turn of its loop (nothing before the first check). -/
def rx_between_checks (W : List Event) : Prop :=
  W = [] ∨
  ∃ (sock : Int) (ret : Int) (isset : Bool) (nbytes : Int) (frame : can_frame),
    W = select_turn_events sock ret isset nbytes frame

set_option maxRecDepth 8192 in
/-- A three-byte message. -/
def short_message : c_string :=
  ⟨[1, 2, 3], by decide⟩

/-- A world like `quiet_world` whose flag is seen set once and cleared afterwards, and
whose `select` reports the socket readable. -/
def readable_world : World :=
  { quiet_world with
    running := fun i => decide (i < 1),
    select_ret := fun _ => (1, true) }

/-! ## Lemmas on traces and frames -/

theorem written_frames_append (t u : List Event) :
    written_frames (t ++ u) = written_frames t ++ written_frames u := by
  induction t with
  | nil => rfl
  | cons e t ih => cases e <;> simp [written_frames, ih]

theorem build_frame_can_id (can_id : Nat) (data : List uint8_t) (len : Nat) :
    (build_frame can_id data len).can_id = can_id := rfl

theorem build_frame_can_dlc (can_id : Nat) (data : List uint8_t) (len : Nat) :
    (build_frame can_id data len).can_dlc = min len 8 := by
  simp only [build_frame]
  split <;> omega

theorem build_frame_data (can_id : Nat) (data : List uint8_t) (len : Nat) :
    (build_frame can_id data len).data
      = data.take (min len 8) ++ List.replicate (8 - min len 8) 0 := by
  have h : (if len > 8 then 8 else len) = min len 8 := by split <;> omega
  simp only [build_frame, memcpy, zero_frame, CAN_MAX_DLEN, h, List.drop_replicate]

theorem build_frame_payload (can_id : Nat) (data : List uint8_t) (len : Nat)
    (h : len ≤ data.length) :
    payload (build_frame can_id data len) = data.take (min len 8) := by
  rw [payload, build_frame_can_dlc, build_frame_data]
  rw [List.take_append_of_le_length (by simp; omega)]
  simp

theorem printed_data_eq (frame : can_frame) (h : frame.can_dlc ≤ frame.data.length) :
    printed_data frame = (frame.data.take frame.can_dlc).map some := by
  apply List.ext_getElem?
  intro i
  simp only [printed_data, data_at, List.getElem?_map, List.getElem?_take]
  by_cases hi : i < frame.can_dlc
  · have : i < frame.data.length := by omega
    simp [List.getElem?_range hi, hi, List.getElem?_eq_getElem this, data_at]
  · have : (List.range frame.can_dlc)[i]? = none := by
      apply List.getElem?_eq_none; simp; omega
    simp [this, hi]

theorem send_can_frame_trace (w : World) (sock : Int) (can_id : Nat) (data : List uint8_t)
    (len : Nat) :
    written_frames (can_communication.send_can_frame w sock can_id data len).2.trace
      = written_frames w.trace ++ [build_frame can_id data len] := by
  simp only [can_communication.send_can_frame, sys_write, World.emit]
  split <;> simp [written_frames_append, written_frames]

/-! ## The frame codec -/

/-- C3: for every identifier and payload, the frame `send_can_frame` hands to `write`
has the given identifier, a length field of `min len 8`, the first `min len 8` bytes
of the payload as its first data bytes, zero in every data byte from the length field
on, and so a length field that counts the valid payload bytes and lies in 0..8. -/
theorem send_can_frame_encodes (w : World) (sock : Int) (can_id : Nat) (P : List uint8_t) :
    ∃ frame : can_frame,
      written_frames (can_communication.send_can_frame w sock can_id P P.length).2.trace
        = written_frames w.trace ++ [frame] ∧
      frame.can_id = can_id ∧
      frame.can_dlc = min P.length 8 ∧
      frame.data.length = 8 ∧
      frame.data.take (min P.length 8) = P.take (min P.length 8) ∧
      (∀ i, frame.can_dlc ≤ i → i < 8 → data_at frame i = some 0) ∧
      (payload frame).length = frame.can_dlc ∧
      frame.can_dlc ≤ 8 := by
  refine ⟨build_frame can_id P P.length, send_can_frame_trace w sock can_id P P.length,
    rfl, build_frame_can_dlc _ _ _, ?_, ?_, ?_, ?_, ?_⟩
  · rw [build_frame_data]; simp
  · rw [build_frame_data, List.take_append_of_le_length (by simp)]
    simp
  · intro i h1 h2
    rw [build_frame_can_dlc] at h1
    rw [data_at, build_frame_data, List.getElem?_append_right (by simp; omega)]
    rw [List.getElem?_replicate]
    simp
    omega
  · rw [build_frame_payload _ _ _ (le_refl _), build_frame_can_dlc]
    simp
  · rw [build_frame_can_dlc]; omega

/-- C2: a payload of at most 8 bytes survives the codec.  The frame `send_can_frame`
writes, when `read` delivers it in full, is accepted by `receive_can_frame` (result
0), which reports the same identifier, the payload length as DLC and exactly the
payload bytes. -/
theorem raw_roundtrip (can_id : Nat) (P : List uint8_t) (hP : P.length ≤ 8)
    (w : World) (sock : Int) :
    ∃ frame : can_frame,
      written_frames (can_communication.send_can_frame w sock can_id P P.length).2.trace
        = written_frames w.trace ++ [frame] ∧
      ∀ (w2 : World) (sock2 : Int), w2.read_ret 0 = (sizeof_can_frame, frame) →
        (can_communication.receive_can_frame w2 sock2).1 = 0 ∧
        (can_communication.receive_can_frame w2 sock2).2.trace
          = w2.trace ++ [Event.read sock2 sizeof_can_frame,
                         Event.print_received can_id P.length (P.map some)] := by
  refine ⟨build_frame can_id P P.length, send_can_frame_trace w sock can_id P P.length, ?_⟩
  intro w2 sock2 hr
  have hdlc : (build_frame can_id P P.length).can_dlc = P.length := by
    rw [build_frame_can_dlc]; omega
  have hlen : (build_frame can_id P P.length).data.length = 8 := by
    rw [build_frame_data]; simp
  have hpr : printed_data (build_frame can_id P P.length) = P.map some := by
    rw [printed_data_eq _ (by omega)]
    have := build_frame_payload can_id P P.length (le_refl _)
    rw [payload] at this
    rw [this, List.take_of_length_le (by omega)]
  simp [can_communication.receive_can_frame, sys_read, World.emit, hr, sizeof_can_frame,
    hdlc, hpr, build_frame_can_id]

/-- Witness for C2: the three bytes 1, 2, 3 under identifier 0x123. -/
theorem raw_roundtrip_witness :
    ∃ frame : can_frame,
      written_frames
          (can_communication.send_can_frame quiet_world 3 0x123 [1, 2, 3] 3).2.trace
        = written_frames quiet_world.trace ++ [frame] ∧
      ∀ (w2 : World) (sock2 : Int), w2.read_ret 0 = (sizeof_can_frame, frame) →
        (can_communication.receive_can_frame w2 sock2).1 = 0 ∧
        (can_communication.receive_can_frame w2 sock2).2.trace
          = w2.trace ++ [Event.read sock2 sizeof_can_frame,
                         Event.print_received 0x123 3 [some 1, some 2, some 3]] :=
  raw_roundtrip 0x123 [1, 2, 3] (by decide) quiet_world 3

/-- C4: `receive_can_frame` returns 0 exactly when `read` returned the size of the
frame structure, and then its output after the `read` is the report of the frame:
identifier, length field and the data bytes below the length field.  For every other
result it returns -1 and its only output, after the `read`, is the read-failure
message when the result is negative and the incomplete-frame line otherwise; no field
of the frame enters either. -/
theorem receive_can_frame_size_check (w : World) (sock : Int) :
    ((can_communication.receive_can_frame w sock).1 = 0
        ↔ (w.read_ret 0).1 = sizeof_can_frame) ∧
    ((w.read_ret 0).1 = sizeof_can_frame →
      (can_communication.receive_can_frame w sock).1 = 0 ∧
      (can_communication.receive_can_frame w sock).2.trace
        = w.trace ++ [Event.read sock sizeof_can_frame,
            Event.print_received (w.read_ret 0).2.can_id (w.read_ret 0).2.can_dlc
              (printed_data (w.read_ret 0).2)]) ∧
    ((w.read_ret 0).1 ≠ sizeof_can_frame →
      (can_communication.receive_can_frame w sock).1 = -1 ∧
      (can_communication.receive_can_frame w sock).2.trace
        = w.trace ++ [Event.read sock (w.read_ret 0).1,
            if (w.read_ret 0).1 < 0 then Event.perror "Failed to receive CAN frame"
            else Event.print_incomplete (w.read_ret 0).1]) := by
  rcases h : w.read_ret 0 with ⟨n, frame⟩
  simp only [can_communication.receive_can_frame, sys_read, World.emit, h, sizeof_can_frame]
  by_cases h1 : n < 0
  · have : n ≠ 16 := by omega
    simp [h1, this]
  · by_cases h2 : n = 16
    · simp [h2]
    · simp [h1, h2]

/-- Witness for C4: a full read of a frame with two valid bytes is decoded and
reported; a short read of 5 bytes is turned away as incomplete. -/
theorem receive_can_frame_size_check_witness :
    ((can_communication.receive_can_frame
        { quiet_world with read_ret := fun _ => (16, ⟨0x123, 2, [7, 9, 0, 0, 0, 0, 0, 0]⟩) }
        3).1 = 0 ∧
     (can_communication.receive_can_frame
        { quiet_world with read_ret := fun _ => (16, ⟨0x123, 2, [7, 9, 0, 0, 0, 0, 0, 0]⟩) }
        3).2.trace
      = [Event.read 3 16, Event.print_received 0x123 2 [some 7, some 9]]) ∧
    ((can_communication.receive_can_frame
        { quiet_world with read_ret := fun _ => (5, zero_frame) } 3).1 = -1 ∧
     (can_communication.receive_can_frame
        { quiet_world with read_ret := fun _ => (5, zero_frame) } 3).2.trace
      = [Event.read 3 5, Event.print_incomplete 5]) :=
  ⟨(receive_can_frame_size_check
      { quiet_world with read_ret := fun _ => (16, ⟨0x123, 2, [7, 9, 0, 0, 0, 0, 0, 0]⟩) }
      3).2.1 rfl,
   (receive_can_frame_size_check
      { quiet_world with read_ret := fun _ => (5, zero_frame) } 3).2.2 (by decide)⟩

/-- C10: `receive_can_frame` prints `frame.data[i]` for every `i` below the length
field without checking that field.  For a frame read in full with its 8-byte data
array, the accesses are exactly the data bytes 0 .. length-1, all inside the array,
when the length field is at most 8; and some access falls outside the array as soon
as the length field exceeds 8, so the bound is needed. -/
theorem receive_can_frame_reads_in_bounds (w : World) (sock : Int) (frame : can_frame)
    (hr : w.read_ret 0 = (sizeof_can_frame, frame)) (hdata : frame.data.length = 8) :
    (can_communication.receive_can_frame w sock).2.trace
      = w.trace ++ [Event.read sock sizeof_can_frame,
          Event.print_received frame.can_id frame.can_dlc (printed_data frame)] ∧
    (frame.can_dlc ≤ 8 →
      printed_data frame = (frame.data.take frame.can_dlc).map some ∧
      none ∉ printed_data frame) ∧
    (8 < frame.can_dlc → none ∈ printed_data frame) := by
  refine ⟨?_, ?_, ?_⟩
  · simp [can_communication.receive_can_frame, sys_read, World.emit, hr, sizeof_can_frame]
  · intro h
    have := printed_data_eq frame (by omega)
    refine ⟨this, ?_⟩
    rw [this]
    intro hmem
    rcases List.mem_map.1 hmem with ⟨b, _, hb⟩
    cases hb
  · intro h
    simp only [printed_data, List.mem_map, List.mem_range]
    exact ⟨8, h, by simp [data_at, hdata]⟩

/-- Witness for C10: a full-size frame with length field 2 is reported from data bytes
0 and 1 only. -/
theorem receive_can_frame_reads_in_bounds_witness :
    printed_data ⟨0x123, 2, [7, 9, 0, 0, 0, 0, 0, 0]⟩ = [some 7, some 9] ∧
    none ∉ printed_data ⟨0x123, 2, [7, 9, 0, 0, 0, 0, 0, 0]⟩ :=
  (receive_can_frame_reads_in_bounds
    { quiet_world with read_ret := fun _ => (16, ⟨0x123, 2, [7, 9, 0, 0, 0, 0, 0, 0]⟩) } 3
    ⟨0x123, 2, [7, 9, 0, 0, 0, 0, 0, 0]⟩ rfl rfl).2.1 (by decide)

/-! ## The chunking loop of the raw-mode transmitter -/

theorem strlen_mem_append_nul (bs : List uint8_t) (h : ∀ b ∈ bs, b ≠ 0) :
    strlen_mem (bs ++ [0]) = bs.length := by
  induction bs with
  | nil => simp [strlen_mem]
  | cons b bs ih =>
    have hb : b ≠ 0 := h b (by simp)
    have := ih (fun c hc => h c (by simp [hc]))
    simp [strlen_mem, hb, this]

theorem strlen_eq (s : c_string) : strlen s = s.bytes.length :=
  strlen_mem_append_nul s.bytes s.no_nul

theorem read_running_running (w : World) (h : ∀ i, w.running i = true) (i : Nat) :
    (read_running w).2.running i = true := h (i + 1)

theorem send_can_frame_running (w : World) (sock : Int) (can_id : Nat)
    (data : List uint8_t) (len : Nat) :
    (can_communication.send_can_frame w sock can_id data len).2.running = w.running := by
  simp only [can_communication.send_can_frame, sys_write, World.emit]
  split <;> rfl

theorem send_can_frame_result (w : World) (sock : Int) (can_id : Nat)
    (data : List uint8_t) (len : Nat) :
    (can_communication.send_can_frame w sock can_id data len).1
      = if w.write_ret 0 = sizeof_can_frame then 0 else -1 := by
  simp only [can_communication.send_can_frame, sys_write, World.emit]
  by_cases h : w.write_ret 0 = sizeof_can_frame <;> simp [h]

theorem send_chunk_fst (m : c_string) (L can_id off : Nat) (w : World) :
    (can_communication.send_chunk m L can_id off w).1 = off + min (L - off) 8 := by
  simp only [can_communication.send_chunk]
  split <;> omega

theorem send_chunk_running (m : c_string) (L can_id off : Nat) (w : World) :
    (can_communication.send_chunk m L can_id off w).2.running = w.running := by
  simp only [can_communication.send_chunk]
  split <;> split <;> simp [World.emit, send_can_frame_running]

theorem send_chunk_frames (m : c_string) (L can_id off : Nat) (w : World) :
    written_frames (can_communication.send_chunk m L can_id off w).2.trace
      = written_frames w.trace
          ++ [build_frame can_id (m.mem.drop off) (min (L - off) 8)] := by
  have h : (if L - off > 8 then 8 else L - off) = min (L - off) 8 := by split <;> omega
  simp only [can_communication.send_chunk, h]
  split <;> simp [World.emit, written_frames_append, written_frames, send_can_frame_trace]

theorem send_chunks_done (m : c_string) (L can_id off : Nat) (w : World) (h : ¬ off < L) :
    can_communication.send_chunks m L can_id off w = w := by
  rw [can_communication.send_chunks]
  simp [h]

theorem send_chunks_cleared (m : c_string) (L can_id off : Nat) (w : World) (h : off < L)
    (hr : w.running 0 = false) :
    can_communication.send_chunks m L can_id off w = (read_running w).2 := by
  rw [can_communication.send_chunks]
  simp [h, read_running, hr]

theorem send_chunks_step (m : c_string) (L can_id off : Nat) (w : World) (h : off < L)
    (hr : w.running 0 = true) :
    can_communication.send_chunks m L can_id off w
      = can_communication.send_chunks m L can_id (off + min (L - off) 8)
          (can_communication.send_chunk m L can_id off (read_running w).2).2 := by
  rw [can_communication.send_chunks]
  simp only [h, if_true]
  have : (read_running w).1 = true := hr
  simp only [this, if_true, send_chunk_fst]

theorem read_running_frames (w : World) :
    written_frames (read_running w).2.trace = written_frames w.trace := by
  simp [read_running, written_frames_append, written_frames]

theorem payload_chunk (m : c_string) (can_id off c : Nat) (hc : c ≤ 8)
    (h : off + c ≤ m.bytes.length) :
    payload (build_frame can_id (m.mem.drop off) c) = (m.bytes.drop off).take c := by
  rw [build_frame_payload _ _ _ (by simp [c_string.mem]; omega)]
  rw [Nat.min_eq_left hc, c_string.mem, List.drop_append_of_le_length (by omega)]
  rw [List.take_append_of_le_length (by simp; omega)]

/-- The frames of one pass of the chunking loop while the flag stays set, from any
offset: their number, their payloads and the length field of the last one. -/
theorem send_chunks_pass (m : c_string) (can_id : Nat) :
    ∀ (n off : Nat) (w : World), m.bytes.length - off = n →
      (∀ i, w.running i = true) →
      ∃ fs : List can_frame,
        written_frames (can_communication.send_chunks m m.bytes.length can_id off w).trace
          = written_frames w.trace ++ fs ∧
        fs.length = (n + 7) / 8 ∧
        (fs.map payload).flatten = m.bytes.drop off ∧
        (0 < n → ∃ f, fs.getLast? = some f ∧
          f.can_dlc = if n % 8 = 0 then 8 else n % 8) := by
  intro n
  induction n using Nat.strong_induction_on with
  | _ n ih =>
    intro off w hn hrun
    by_cases h : off < m.bytes.length
    · rw [send_chunks_step m _ can_id off w h (hrun 0)]
      have hrun2 : ∀ i, (can_communication.send_chunk m m.bytes.length can_id off
          (read_running w).2).2.running i = true := by
        intro i; rw [send_chunk_running]; exact read_running_running w hrun i
      have hfr := send_chunk_frames m m.bytes.length can_id off (read_running w).2
      rw [read_running_frames] at hfr
      have hc1 : min (m.bytes.length - off) 8 ≤ 8 := Nat.min_le_right _ _
      have hc2 : min (m.bytes.length - off) 8 ≤ m.bytes.length - off := Nat.min_le_left _ _
      have hc3 : 8 < m.bytes.length - off → min (m.bytes.length - off) 8 = 8 :=
        fun h8 => Nat.min_eq_right (Nat.le_of_lt h8)
      have hc4 : m.bytes.length - off ≤ 8 →
          min (m.bytes.length - off) 8 = m.bytes.length - off :=
        fun h8 => Nat.min_eq_left h8
      generalize min (m.bytes.length - off) 8 = c at hc1 hc2 hc3 hc4 hrun2 hfr ⊢
      have hcase : (8 < n ∧ c = 8) ∨ (n ≤ 8 ∧ c = n) := by
        rcases Nat.lt_or_ge 8 (m.bytes.length - off) with h8 | h8
        · have := hc3 h8; left; omega
        · have := hc4 h8; right; omega
      clear hc3 hc4
      have hlt : m.bytes.length - (off + c) < n := by omega
      have hrest : m.bytes.length - (off + c) = n - c := by omega
      obtain ⟨fs, h1, h2, h3, h4⟩ :=
        ih (m.bytes.length - (off + c)) hlt (off + c) _ rfl hrun2
      rw [hrest] at h2 h4
      refine ⟨build_frame can_id (m.mem.drop off) c :: fs, ?_, ?_, ?_, ?_⟩
      · rw [h1, hfr]; simp
      · simp only [List.length_cons, h2]
        clear h4 h1 h3 hfr
        omega
      · simp only [List.map_cons, List.flatten_cons, h3]
        rw [payload_chunk m can_id off _ hc1 (by omega)]
        rw [← List.drop_drop, List.take_append_drop]
      · intro _
        by_cases hlast : 0 < n - c
        · obtain ⟨f, hf1, hf2⟩ := h4 hlast
          refine ⟨f, ?_, ?_⟩
          · cases fs with
            | nil => simp at hf1
            | cons g gs => simpa [List.getLast?_cons_cons] using hf1
          · rw [hf2]
            have hc8 : c = 8 := by omega
            subst hc8
            clear h4 h1 h3 hfr hf2
            split <;> split <;> omega
        · have hfs : fs = [] := by
            apply List.eq_nil_of_length_eq_zero; rw [h2]; omega
          refine ⟨build_frame can_id (m.mem.drop off) c, by rw [hfs]; rfl, ?_⟩
          rw [build_frame_can_dlc, Nat.min_eq_left hc1]
          have hcn : c = n := by omega
          clear h4 h1 h3 hfr
          split <;> omega
    · rw [send_chunks_done m _ can_id off w h]
      refine ⟨[], by simp, ?_, ?_, ?_⟩
      · simp; omega
      · simp; omega
      · intro h0; omega

/-- Two passes of the chunking loop from the same offset, in two worlds whose flag
stays set, write the same frames, whatever the writes return. -/
theorem send_chunks_indep (m : c_string) (L can_id : Nat) :
    ∀ (n off : Nat) (w1 w2 : World), L - off = n →
      (∀ i, w1.running i = true) → (∀ i, w2.running i = true) →
      (∀ i, (can_communication.send_chunks m L can_id off w1).running i = true) ∧
      ∃ D : List can_frame,
        written_frames (can_communication.send_chunks m L can_id off w1).trace
          = written_frames w1.trace ++ D ∧
        written_frames (can_communication.send_chunks m L can_id off w2).trace
          = written_frames w2.trace ++ D := by
  intro n
  induction n using Nat.strong_induction_on with
  | _ n ih =>
    intro off w1 w2 hn hr1 hr2
    by_cases h : off < L
    · rw [send_chunks_step m L can_id off w1 h (hr1 0),
        send_chunks_step m L can_id off w2 h (hr2 0)]
      have hc2 : min (L - off) 8 ≤ L - off := Nat.min_le_left _ _
      have hc0 : 0 < min (L - off) 8 := by
        apply Nat.lt_min.2; constructor <;> omega
      have hf1 := send_chunk_frames m L can_id off (read_running w1).2
      have hf2 := send_chunk_frames m L can_id off (read_running w2).2
      rw [read_running_frames] at hf1 hf2
      have hq1 : ∀ i, (can_communication.send_chunk m L can_id off
          (read_running w1).2).2.running i = true := by
        intro i; rw [send_chunk_running]; exact read_running_running w1 hr1 i
      have hq2 : ∀ i, (can_communication.send_chunk m L can_id off
          (read_running w2).2).2.running i = true := by
        intro i; rw [send_chunk_running]; exact read_running_running w2 hr2 i
      generalize min (L - off) 8 = c at hc2 hc0 hf1 hf2 hq1 hq2 ⊢
      obtain ⟨hrun, D, hD1, hD2⟩ :=
        ih (L - (off + c)) (by omega) (off + c) _ _ rfl hq1 hq2
      refine ⟨hrun, build_frame can_id (m.mem.drop off) c :: D, ?_, ?_⟩
      · rw [hD1, hf1]; simp
      · rw [hD2, hf2]; simp
    · rw [send_chunks_done m L can_id off w1 h, send_chunks_done m L can_id off w2 h]
      exact ⟨hr1, [], by simp, by simp⟩

theorem send_message_frames (m : c_string) (w : World) (hr : ∀ i, w.running i = true) :
    (∀ i, (can_communication.send_message m (strlen m) 0x123 w).running i = true) ∧
    written_frames (can_communication.send_message m (strlen m) 0x123 w).trace
      = written_frames w.trace ++ pass_frames m := by
  obtain ⟨hrun, D, hD1, hD2⟩ :=
    send_chunks_indep m (strlen m) 0x123 (strlen m - 0) 0 w quiet_world rfl hr (fun _ => rfl)
  have hq : written_frames quiet_world.trace = [] := rfl
  rw [hq, List.nil_append] at hD2
  refine ⟨hrun, ?_⟩
  simp only [pass_frames, can_communication.send_message, World.emit,
    written_frames_append, hD1, hD2]
  simp [written_frames]

theorem send_loop_frames (m : c_string) :
    ∀ (fuel : Nat) (w : World), (∀ i, w.running i = true) →
      (can_communication.send_loop m (strlen m) 0x123 fuel w).2 = false ∧
      written_frames (can_communication.send_loop m (strlen m) 0x123 fuel w).1.trace
        = written_frames w.trace ++ (List.replicate fuel (pass_frames m)).flatten := by
  intro fuel
  induction fuel with
  | zero => intro w _; simp [can_communication.send_loop]
  | succ k ih =>
    intro w hr
    have h0 : (read_running w).1 = true := hr 0
    obtain ⟨hrun, hfr⟩ := send_message_frames m (read_running w).2 (read_running_running w hr)
    obtain ⟨hA, hB⟩ := ih _ hrun
    simp only [can_communication.send_loop, h0, if_true]
    refine ⟨hA, ?_⟩
    rw [hB, hfr, read_running_frames, List.replicate_succ, List.flatten_cons,
      List.append_assoc]

theorem sent_messages_append (t u : List Event) :
    sent_messages (t ++ u) = sent_messages t ++ sent_messages u := by
  induction t with
  | nil => rfl
  | cons e t ih => cases e <;> simp [sent_messages, ih]

theorem cantp_send_once (w : World) (hr : ∀ i, w.running i = true) :
    (∀ i, (cantp_communication.send_once cantp_communication.cantp_payload.length
        w).running i = true) ∧
    sent_messages
        (cantp_communication.send_once cantp_communication.cantp_payload.length w).trace
      = sent_messages w.trace ++ [cantp_communication.cantp_payload] := by
  simp only [cantp_communication.send_once, sys_send, World.emit]
  split <;> simp [sent_messages_append, sent_messages, hr]

theorem cantp_send_loop (fuel : Nat) :
    ∀ w : World, (∀ i, w.running i = true) →
      (cantp_communication.send_thread fuel w).2 = false ∧
      sent_messages (cantp_communication.send_thread fuel w).1.trace
        = sent_messages w.trace
            ++ List.replicate fuel cantp_communication.cantp_payload := by
  induction fuel with
  | zero => intro w _; simp [cantp_communication.send_thread, cantp_communication.send_loop]
  | succ k ih =>
    intro w hr
    have h0 : (read_running w).1 = true := hr 0
    obtain ⟨hrun, hfr⟩ := cantp_send_once (read_running w).2 (read_running_running w hr)
    obtain ⟨hA, hB⟩ := ih _ hrun
    simp only [cantp_communication.send_thread] at hA hB ⊢
    simp only [cantp_communication.send_loop, h0, if_true]
    refine ⟨hA, ?_⟩
    rw [hB, hfr]
    simp [read_running, sent_messages_append, sent_messages, List.replicate_succ]

/-! ## Shutdown: what follows the first check that sees the flag cleared -/

theorem since_last_check_flag (t : List Event) (b : Bool) :
    since_last_check (t ++ [Event.read_running b]) = [] := by
  simp [since_last_check, Event.is_flag_read]

theorem since_last_check_append (t u : List Event) (hu : ∀ e ∈ u, e.is_flag_read = false) :
    since_last_check (t ++ u) = since_last_check t ++ u := by
  simp only [since_last_check, List.reverse_append]
  rw [List.takeWhile_append_of_pos]
  · rw [List.reverse_append, List.reverse_reverse]
  · intro e he
    simp [hu e (List.mem_reverse.1 he)]

theorem never_reset_shift (f : Nat → Bool) (h : never_reset f) :
    never_reset (fun i => f (i + 1)) :=
  fun i hi => h (i + 1) hi

theorem send_call_events_no_flag (sock : Int) (frame : can_frame) (nbytes : Int) :
    ∀ e ∈ send_call_events sock frame nbytes, e.is_flag_read = false := by
  intro e he
  simp only [send_call_events] at he
  split at he
  · simp only [List.append_nil, List.mem_cons, List.mem_singleton, List.mem_nil_iff,
      or_false] at he
    rcases he with h | h <;> rw [h] <;> rfl
  · simp only [List.cons_append, List.nil_append, List.mem_cons, List.mem_singleton,
      List.mem_nil_iff, or_false] at he
    rcases he with h | h | h | h <;> rw [h] <;> rfl

theorem receive_call_events_no_flag (sock : Int) (nbytes : Int) (frame : can_frame) :
    ∀ e ∈ receive_call_events sock nbytes frame, e.is_flag_read = false := by
  intro e he
  simp only [receive_call_events] at he
  split at he
  · simp only [List.mem_cons, List.mem_singleton, List.mem_nil_iff, or_false] at he
    rcases he with h | h <;> rw [h] <;> rfl
  · split at he
    · simp only [List.mem_cons, List.mem_singleton, List.mem_nil_iff, or_false] at he
      rcases he with h | h | h <;> rw [h] <;> rfl
    · simp only [List.mem_cons, List.mem_singleton, List.mem_nil_iff, or_false] at he
      rcases he with h | h <;> rw [h] <;> rfl

theorem select_turn_events_no_flag (sock : Int) (ret : Int) (isset : Bool) (nbytes : Int)
    (frame : can_frame) :
    ∀ e ∈ select_turn_events sock ret isset nbytes frame, e.is_flag_read = false := by
  intro e he
  simp only [select_turn_events, List.mem_cons] at he
  rcases he with h | he
  · rw [h]; rfl
  · split at he
    · simp only [List.mem_singleton] at he
      rw [he]; rfl
    · split at he
      · exact receive_call_events_no_flag sock nbytes frame e he
      · simp at he

/-- What one turn of the chunking loop adds to the trace: exactly the events of one
call of `send_can_frame`. -/
theorem send_chunk_events (m : c_string) (L can_id off : Nat) (w : World) :
    (can_communication.send_chunk m L can_id off w).2.trace
      = w.trace ++ send_call_events w.socket_fd
          (build_frame can_id (m.mem.drop off) (min (L - off) 8)) (w.write_ret 0) := by
  have h : (if L - off > 8 then 8 else L - off) = min (L - off) 8 := by split <;> omega
  simp only [can_communication.send_chunk, h, can_communication.send_can_frame, sys_write,
    World.emit, send_call_events]
  by_cases hn : w.write_ret 0 = sizeof_can_frame
  · simp [hn]
  · simp [hn]

theorem not_mem_of_no_flag_read (ev : List Event) (h : ∀ e ∈ ev, e.is_flag_read = false) :
    Event.read_running false ∉ ev := by
  intro hm
  have := h _ hm
  simp [Event.is_flag_read] at this

/-- The chunking loop under a flag that is never set again and is cleared at read
`k`.  Either no read sees it cleared (`Or.inl`), or the loop is left right after the
first read that does (`Or.inr`).  `cur` is the part of the trace under observation;
since the last check of the flag the task has done nothing or one call of
`send_can_frame`. -/
theorem send_chunks_shutdown (m : c_string) (L can_id : Nat) :
    ∀ (n off : Nat) (w : World) (k : Nat) (base cur : List Event), L - off = n →
      never_reset w.running → w.running k = false → w.trace = base ++ cur →
      Event.read_running false ∉ cur →
      (since_last_check cur = [] ∨
        ∃ sock frame nbytes, since_last_check cur = send_call_events sock frame nbytes) →
      never_reset (can_communication.send_chunks m L can_id off w).running ∧
      ((∃ ev : List Event,
          (can_communication.send_chunks m L can_id off w).trace = base ++ (cur ++ ev) ∧
          Event.read_running false ∉ cur ++ ev ∧
          (since_last_check (cur ++ ev) = [] ∨
            ∃ sock frame nbytes,
              since_last_check (cur ++ ev) = send_call_events sock frame nbytes) ∧
          ∃ k', k' ≤ k ∧ (can_communication.send_chunks m L can_id off w).running k' = false)
       ∨
       (∃ pre : List Event,
          (can_communication.send_chunks m L can_id off w).trace
            = base ++ pre ++ [Event.read_running false] ∧
          Event.read_running false ∉ pre ∧
          (since_last_check pre = [] ∨
            ∃ sock frame nbytes, since_last_check pre = send_call_events sock frame nbytes) ∧
          (can_communication.send_chunks m L can_id off w).running 0 = false)) := by
  intro n
  induction n using Nat.strong_induction_on with
  | _ n ih =>
    intro off w k base cur hn hmono hk htr hcur hW
    by_cases h : off < L
    · cases hr : w.running 0 with
      | false =>
        rw [send_chunks_cleared m L can_id off w h hr]
        refine ⟨never_reset_shift _ hmono, Or.inr ⟨cur, ?_, hcur, hW, ?_⟩⟩
        · simp [read_running, htr, hr]
        · exact hmono 0 hr
      | true =>
        rw [send_chunks_step m L can_id off w h hr]
        have hk0 : k ≠ 0 := by
          intro h0; rw [h0, hr] at hk; cases hk
        have hev := send_chunk_events m L can_id off (read_running w).2
        have hc2 : min (L - off) 8 ≤ L - off := Nat.min_le_left _ _
        have hc0 : 0 < min (L - off) 8 := by
          apply Nat.lt_min.2; constructor <;> omega
        generalize hevd : send_call_events (read_running w).2.socket_fd
          (build_frame can_id (m.mem.drop off) (min (L - off) 8))
          ((read_running w).2.write_ret 0) = ev at hev
        have hnf : ∀ e ∈ ev, e.is_flag_read = false := by
          rw [← hevd]; exact send_call_events_no_flag _ _ _
        generalize min (L - off) 8 = c at hc2 hc0 hevd ⊢
        have hrun : (can_communication.send_chunk m L can_id off (read_running w).2).2.running
            = fun i => w.running (i + 1) := by
          rw [send_chunk_running]; rfl
        have htr2 : (can_communication.send_chunk m L can_id off (read_running w).2).2.trace
            = base ++ (cur ++ Event.read_running true :: ev) := by
          rw [hev]; simp [read_running, htr, hr]
        have hslc : since_last_check (cur ++ Event.read_running true :: ev) = ev := by
          have : cur ++ Event.read_running true :: ev
              = (cur ++ [Event.read_running true]) ++ ev := by simp
          rw [this, since_last_check_append _ _ hnf, since_last_check_flag]; rfl
        have hnm : Event.read_running false ∉ cur ++ Event.read_running true :: ev := by
          have := not_mem_of_no_flag_read ev hnf
          simp [hcur, this]
        have hk1 : (can_communication.send_chunk m L can_id off
            (read_running w).2).2.running (k - 1) = false := by
          rw [hrun]
          show w.running (k - 1 + 1) = false
          rw [Nat.sub_add_cancel (Nat.pos_of_ne_zero hk0)]; exact hk
        have hmono2 : never_reset (can_communication.send_chunk m L can_id off
            (read_running w).2).2.running := by
          rw [hrun]; exact never_reset_shift _ hmono
        obtain ⟨hm3, hres⟩ := ih (L - (off + c)) (by omega) (off + c) _ (k - 1) base
          (cur ++ Event.read_running true :: ev) rfl hmono2 hk1 htr2 hnm
          (Or.inr ⟨_, _, _, by rw [hslc, ← hevd]⟩)
        refine ⟨hm3, ?_⟩
        rcases hres with ⟨ev2, h1, h2, h3, k', hk', h5⟩ | ⟨pre, h1, h2, h3, h5⟩
        · refine Or.inl ⟨Event.read_running true :: ev ++ ev2, ?_, ?_, ?_, k', by omega, h5⟩
          · rw [h1]; simp
          · simpa using h2
          · simpa using h3
        · exact Or.inr ⟨pre, h1, h2, h3, h5⟩
    · rw [send_chunks_done m L can_id off w h]
      exact ⟨hmono, Or.inl ⟨[], by simp [htr], by simpa using hcur, by simpa using hW,
        k, le_refl _, hk⟩⟩

/-- The outer loop of the raw-mode `send_thread` under a flag that is never set again
and is cleared at read `k`, with more than `k` units of fuel: the task returns, and
after the first read that sees the flag cleared it does nothing, or sleeps once and
checks again. -/
theorem send_loop_shutdown (m : c_string) (L can_id : Nat) :
    ∀ (fuel : Nat) (w : World) (k : Nat) (base cur : List Event),
      never_reset w.running → w.running k = false → k < fuel → w.trace = base ++ cur →
      Event.read_running false ∉ cur →
      tx_between_checks (since_last_check cur) →
      (can_communication.send_loop m L can_id fuel w).2 = true ∧
      ∃ pre post : List Event,
        (can_communication.send_loop m L can_id fuel w).1.trace
          = base ++ pre ++ [Event.read_running false] ++ post ∧
        Event.read_running false ∉ pre ∧
        (post = [] ∨ post = [Event.sleep 1, Event.read_running false]) ∧
        tx_between_checks (since_last_check pre) := by
  intro fuel
  induction fuel with
  | zero => intro w k base cur _ _ hk; omega
  | succ fuel ih =>
    intro w k base cur hmono hk hfuel htr hcur hW
    cases hr : w.running 0 with
    | false =>
      have h0 : (read_running w).1 = false := hr
      simp only [can_communication.send_loop, h0]
      refine ⟨by simp, cur, [], ?_, hcur, Or.inl rfl, hW⟩
      simp [read_running, htr, hr]
    | true =>
      have h0 : (read_running w).1 = true := hr
      simp only [can_communication.send_loop, h0, if_true]
      have hk0 : k ≠ 0 := by
        intro h0; rw [h0, hr] at hk; cases hk
      have hk1 : (read_running w).2.running (k - 1) = false := by
        show w.running (k - 1 + 1) = false
        rw [Nat.sub_add_cancel (Nat.pos_of_ne_zero hk0)]; exact hk
      have htr1 : (read_running w).2.trace = base ++ (cur ++ [Event.read_running true]) := by
        simp [read_running, htr, hr]
      obtain ⟨hm2, hres⟩ := send_chunks_shutdown m L can_id (L - 0) 0 (read_running w).2
        (k - 1) base (cur ++ [Event.read_running true]) rfl (never_reset_shift _ hmono) hk1 htr1
        (by simp [hcur]) (Or.inl (since_last_check_flag _ _))
      rcases hres with ⟨ev, h1, h2, h3, k', hk', h5⟩ | ⟨pre, h1, h2, h3, h5⟩
      · have hsl : ∀ e ∈ [Event.sleep 1], e.is_flag_read = false := by
          intro e he; simp at he; subst he; rfl
        have hW2 : tx_between_checks (since_last_check
            (cur ++ [Event.read_running true] ++ ev ++ [Event.sleep 1])) := by
          rw [since_last_check_append _ _ hsl]
          rcases h3 with h3 | ⟨sock, frame, nbytes, h3⟩
          · rw [h3]; exact Or.inr (Or.inl rfl)
          · rw [h3]; exact Or.inr (Or.inr ⟨sock, frame, nbytes, Or.inr rfl⟩)
        exact ih (can_communication.send_message m L can_id (read_running w).2) k' base
          (cur ++ [Event.read_running true] ++ ev ++ [Event.sleep 1]) hm2 h5 (by omega)
          (by simp [can_communication.send_message, World.emit, h1])
          (by simpa using h2) hW2
      · have hfl : ∃ f, fuel = f + 1 := ⟨fuel - 1, by omega⟩
        obtain ⟨f, hf⟩ := hfl
        subst hf
        have h00 : (read_running
            (can_communication.send_message m L can_id (read_running w).2)).1 = false := h5
        simp only [can_communication.send_loop, h00, Bool.false_eq_true, if_false]
        have hW2 : tx_between_checks (since_last_check pre) := by
          rcases h3 with h3 | ⟨sock, frame, nbytes, h3⟩
          · exact Or.inl h3
          · exact Or.inr (Or.inr ⟨sock, frame, nbytes, Or.inl h3⟩)
        refine ⟨trivial, pre, [Event.sleep 1, Event.read_running false], ?_, h2, Or.inr rfl,
          hW2⟩
        have e1 : ∀ v : World,
            (read_running v).2.trace = v.trace ++ [Event.read_running (v.running 0)] :=
          fun _ => rfl
        have e2 : (can_communication.send_message m L can_id (read_running w).2).trace
            = (can_communication.send_chunks m L can_id 0 (read_running w).2).trace
                ++ [Event.sleep 1] := rfl
        have e3 : (can_communication.send_message m L can_id (read_running w).2).running
            = (can_communication.send_chunks m L can_id 0 (read_running w).2).running := rfl
        rw [e1, e3, e2, h5, h1]
        simp

/-- What one turn of the select-based receiver loop adds to the trace: no read of the
flag, the `select` first, and at most one `read`. -/
theorem receive_select_events (w : World) :
    (can_communication.receive_select w).running = w.running ∧
    ∃ ev : List Event,
      (can_communication.receive_select w).trace
        = w.trace ++ Event.select w.socket_fd 1 (w.select_ret 0).1 (w.select_ret 0).2 :: ev ∧
      (∀ e ∈ ev, e.is_flag_read = false) ∧
      ev.countP Event.is_select = 0 ∧
      ev.countP Event.is_read
        = if 0 < (w.select_ret 0).1 ∧ (w.select_ret 0).2 = true then 1 else 0 := by
  rcases hsel : w.select_ret 0 with ⟨ret, isset⟩
  simp only [can_communication.receive_select, can_communication.receive_can_frame,
    sys_select, sys_read, World.emit, hsel]
  by_cases h1 : ret < 0
  · have : ¬ 0 < ret := by omega
    simp [h1, this, List.countP_cons, Event.is_flag_read, Event.is_select, Event.is_read]
  · by_cases h2 : 0 < ret ∧ isset = true
    · simp only [h1, if_false, gt_iff_lt, h2, and_self, if_true]
      split <;> split <;>
        simp_all [List.countP_cons, Event.is_flag_read, Event.is_select, Event.is_read]
    · simp only [h1, if_false, gt_iff_lt, h2]
      simp [List.countP_cons, Event.is_flag_read, Event.is_select, Event.is_read]

theorem receive_thread_step (fuel : Nat) (w : World) (hr : w.running 0 = true) :
    can_communication.receive_thread (fuel + 1) w
      = can_communication.receive_thread fuel
          (can_communication.receive_select (read_running w).2) := by
  have h0 : (read_running w).1 = true := hr
  simp [can_communication.receive_thread, h0, can_communication.USE_BLOCKING_READ]

theorem receive_thread_stop (fuel : Nat) (w : World) (hr : w.running 0 = false) :
    can_communication.receive_thread (fuel + 1) w = ((read_running w).2, true) := by
  have h0 : (read_running w).1 = false := hr
  simp [can_communication.receive_thread, h0]

/-- What one turn of the select-based receiver loop adds to the trace, exactly. -/
theorem receive_select_exact (w : World) :
    (can_communication.receive_select w).trace
      = w.trace ++ select_turn_events w.socket_fd (w.select_ret 0).1 (w.select_ret 0).2
          (w.read_ret 0).1 (w.read_ret 0).2 := by
  rcases hsel : w.select_ret 0 with ⟨ret, isset⟩
  rcases hrd : w.read_ret 0 with ⟨nbytes, frame⟩
  simp only [can_communication.receive_select, can_communication.receive_can_frame,
    sys_select, sys_read, World.emit, hsel, hrd, select_turn_events, receive_call_events]
  by_cases h1 : ret < 0
  · simp [h1]
  · by_cases h2 : 0 < ret ∧ isset = true
    · simp only [h1, if_false, gt_iff_lt, h2, and_self, if_true]
      by_cases h3 : nbytes < 0
      · have : nbytes ≠ 16 := by omega
        simp [h3, sizeof_can_frame]
      · by_cases h4 : nbytes = 16
        · simp [h4, sizeof_can_frame]
        · simp [h3, h4, sizeof_can_frame]
    · simp only [h1, if_false, gt_iff_lt, h2]

/-- The select-based `receive_thread` under a flag that is never set again and is
cleared at read `k`, with more than `k` units of fuel: the task returns right after
the first read that sees the flag cleared. -/
theorem receive_thread_shutdown :
    ∀ (fuel : Nat) (w : World) (k : Nat) (base cur : List Event),
      never_reset w.running → w.running k = false → k < fuel → w.trace = base ++ cur →
      Event.read_running false ∉ cur →
      rx_between_checks (since_last_check cur) →
      (can_communication.receive_thread fuel w).2 = true ∧
      ∃ pre : List Event,
        (can_communication.receive_thread fuel w).1.trace
          = base ++ pre ++ [Event.read_running false] ∧
        Event.read_running false ∉ pre ∧
        rx_between_checks (since_last_check pre) := by
  intro fuel
  induction fuel with
  | zero => intro w k base cur _ _ hk; omega
  | succ fuel ih =>
    intro w k base cur hmono hk hfuel htr hcur hW
    cases hr : w.running 0 with
    | false =>
      rw [receive_thread_stop fuel w hr]
      refine ⟨rfl, cur, ?_, hcur, hW⟩
      simp [read_running, htr, hr]
    | true =>
      rw [receive_thread_step fuel w hr]
      have hk0 : k ≠ 0 := by
        intro h0; rw [h0, hr] at hk; cases hk
      obtain ⟨hrun, _⟩ := receive_select_events (read_running w).2
      have hev := receive_select_exact (read_running w).2
      have hk1 : (can_communication.receive_select (read_running w).2).running (k - 1)
          = false := by
        rw [hrun]
        show w.running (k - 1 + 1) = false
        rw [Nat.sub_add_cancel (Nat.pos_of_ne_zero hk0)]; exact hk
      have hmono2 : never_reset (can_communication.receive_select (read_running w).2).running := by
        rw [hrun]; exact never_reset_shift _ hmono
      generalize hevd : select_turn_events (read_running w).2.socket_fd
        ((read_running w).2.select_ret 0).1 ((read_running w).2.select_ret 0).2
        ((read_running w).2.read_ret 0).1 ((read_running w).2.read_ret 0).2 = ev at hev
      have hnf : ∀ e ∈ ev, e.is_flag_read = false := by
        rw [← hevd]; exact select_turn_events_no_flag _ _ _ _ _
      have hslc : since_last_check (cur ++ [Event.read_running true] ++ ev) = ev := by
        rw [since_last_check_append _ _ hnf, since_last_check_flag]; rfl
      exact ih _ (k - 1) base (cur ++ [Event.read_running true] ++ ev) hmono2 hk1
        (by omega)
        (by rw [hev]; simp [read_running, htr, hr])
        (by have := not_mem_of_no_flag_read _ hnf
            simp only [List.mem_append, not_or]
            exact ⟨⟨hcur, by simp⟩, this⟩)
        (Or.inr ⟨_, _, _, _, _, by rw [hslc, ← hevd]⟩)

theorem tx_between_checks_calls (W : List Event) (h : tx_between_checks W) :
    W.countP Event.is_call ≤ 2 := by
  rcases h with h | h | ⟨sock, frame, nbytes, h | h⟩
  · rw [h]; decide
  · rw [h]; decide
  · rw [h]; simp only [send_call_events]
    split <;> simp [List.countP_cons, Event.is_call]
  · rw [h]; simp only [send_call_events]
    split <;> simp [List.countP_cons, Event.is_call]

theorem rx_between_checks_calls (W : List Event) (h : rx_between_checks W) :
    W.countP Event.is_call ≤ 2 := by
  rcases h with h | ⟨sock, ret, isset, nbytes, frame, h⟩
  · rw [h]; decide
  · rw [h]; simp only [select_turn_events, receive_call_events]
    split
    · simp [List.countP_cons, Event.is_call]
    · split
      · split
        · simp [List.countP_cons, Event.is_call]
        · split <;> simp [List.countP_cons, Event.is_call]
      · simp [List.countP_cons, Event.is_call]

/-- C8 as stated fails in its last clause: more than one operation can lie between
the last check that sees the flag set and the first that sees it cleared.  With a
three-byte message the transmitter completes a `write` and then a `sleep(1)` between
them; with a readable socket the receiver completes a `select` and then a `read`. -/
theorem two_calls_between_flag_checks :
    (can_communication.send_thread short_message 3 (world_cleared_after 2)).1.trace
      = [Event.read_running true,
         Event.read_running true,
         Event.print_sending 0x123 3 [some 1, some 2, some 3],
         Event.write 3 ⟨0x123, 3, [1, 2, 3, 0, 0, 0, 0, 0]⟩ 16,
         Event.sleep 1,
         Event.read_running false] ∧
    ¬ (since_last_check (before_cleared
        (can_communication.send_thread short_message 3
          (world_cleared_after 2)).1.trace)).countP Event.is_call ≤ 1 ∧
    (can_communication.receive_thread 2 readable_world).1.trace
      = [Event.read_running true,
         Event.select 3 1 1 true,
         Event.read 3 16,
         Event.print_received 0 0 [],
         Event.printf "Successfully received a frame",
         Event.read_running false] ∧
    ¬ (since_last_check (before_cleared
        (can_communication.receive_thread 2 readable_world).1.trace)).countP
          Event.is_call ≤ 1 := by
  have h3 : strlen short_message = 3 := by rw [strlen_eq]; rfl
  have htx : (can_communication.send_thread short_message 3 (world_cleared_after 2)).1.trace
      = [Event.read_running true,
         Event.read_running true,
         Event.print_sending 0x123 3 [some 1, some 2, some 3],
         Event.write 3 ⟨0x123, 3, [1, 2, 3, 0, 0, 0, 0, 0]⟩ 16,
         Event.sleep 1,
         Event.read_running false] := by
    simp only [can_communication.send_thread, h3]
    simp [can_communication.send_loop, can_communication.send_message,
      can_communication.send_chunks, can_communication.send_chunk,
      can_communication.send_can_frame, sys_write, read_running, World.emit,
      world_cleared_after, quiet_world, sizeof_can_frame]
    decide
  have hrx : (can_communication.receive_thread 2 readable_world).1.trace
      = [Event.read_running true,
         Event.select 3 1 1 true,
         Event.read 3 16,
         Event.print_received 0 0 [],
         Event.printf "Successfully received a frame",
         Event.read_running false] := by
    decide
  refine ⟨htx, ?_, hrx, ?_⟩
  · rw [htx]; decide
  · rw [hrx]; decide

/-- C8, amended: clearing the flag stops both tasks.  The flag is a stream of
observations that is never set again once seen cleared, and read `k` sees it cleared;
with more than `k` units of fuel both tasks return.  After the first check that sees
the flag cleared the raw-mode transmitter writes no frame and either returns at once
or sleeps once, checks again and returns; the select-based receiver returns at once,
with no further `select` or `read`.  Between that check and the check before it the
transmitter did nothing, one call of `send_can_frame`, the `sleep(1)`, or one call of
`send_can_frame` and then the `sleep(1)`; the receiver did one turn of its loop, a
`select` and at most one call of `receive_can_frame`: at most two system calls, and
nothing else. -/
theorem cleared_flag_stops_tasks (message : c_string) (w : World) (k fuel : Nat)
    (hnr : never_reset w.running) (hk : w.running k = false) (hfuel : k < fuel) :
    ((can_communication.send_thread message fuel w).2 = true ∧
      ∃ pre post : List Event,
        (can_communication.send_thread message fuel w).1.trace
          = w.trace ++ pre ++ [Event.read_running false] ++ post ∧
        Event.read_running false ∉ pre ∧
        (post = [] ∨ post = [Event.sleep 1, Event.read_running false]) ∧
        tx_between_checks (since_last_check pre) ∧
        (since_last_check pre).countP Event.is_call ≤ 2) ∧
    ((can_communication.receive_thread fuel w).2 = true ∧
      ∃ pre : List Event,
        (can_communication.receive_thread fuel w).1.trace
          = w.trace ++ pre ++ [Event.read_running false] ∧
        Event.read_running false ∉ pre ∧
        rx_between_checks (since_last_check pre) ∧
        (since_last_check pre).countP Event.is_call ≤ 2) := by
  obtain ⟨ht, pre, post, h1, h2, h3, h4⟩ :=
    send_loop_shutdown message (strlen message) 0x123 fuel w k w.trace [] hnr hk hfuel
      (by simp) (by simp) (Or.inl rfl)
  obtain ⟨hr, pre2, g1, g2, g3⟩ :=
    receive_thread_shutdown fuel w k w.trace [] hnr hk hfuel (by simp) (by simp) (Or.inl rfl)
  exact ⟨⟨ht, pre, post, h1, h2, h3, h4, tx_between_checks_calls _ h4⟩,
    ⟨hr, pre2, g1, g2, g3, rx_between_checks_calls _ g3⟩⟩

/-- Witness for C8: the flag is seen set three times and cleared from the fourth read
on, which falls in the middle of a message. -/
theorem cleared_flag_stops_tasks_witness :
    never_reset (world_cleared_after 3).running ∧
    (world_cleared_after 3).running 3 = false ∧
    ((can_communication.send_thread can_communication.demo_message 4
        (world_cleared_after 3)).2 = true ∧
      ∃ pre post : List Event,
        (can_communication.send_thread can_communication.demo_message 4
            (world_cleared_after 3)).1.trace
          = (world_cleared_after 3).trace ++ pre ++ [Event.read_running false] ++ post ∧
        Event.read_running false ∉ pre ∧
        (post = [] ∨ post = [Event.sleep 1, Event.read_running false]) ∧
        tx_between_checks (since_last_check pre) ∧
        (since_last_check pre).countP Event.is_call ≤ 2) ∧
    ((can_communication.receive_thread 4 (world_cleared_after 3)).2 = true ∧
      ∃ pre : List Event,
        (can_communication.receive_thread 4 (world_cleared_after 3)).1.trace
          = (world_cleared_after 3).trace ++ pre ++ [Event.read_running false] ∧
        Event.read_running false ∉ pre ∧
        rx_between_checks (since_last_check pre) ∧
        (since_last_check pre).countP Event.is_call ≤ 2) :=
  have hnr : never_reset (world_cleared_after 3).running := by
    intro i hi
    simp only [world_cleared_after, decide_eq_false_iff_not] at hi ⊢
    omega
  ⟨hnr, by decide,
    cleared_flag_stops_tasks can_communication.demo_message (world_cleared_after 3) 3 4
      hnr (by decide) (by decide)⟩

/-! ## The select-based receiver loop -/

/-- The trace of `receive_thread` extends the trace it starts from. -/
theorem receive_thread_extends :
    ∀ (fuel : Nat) (w : World),
      w.trace <+: (can_communication.receive_thread fuel w).1.trace := by
  intro fuel
  induction fuel with
  | zero => intro w; exact List.prefix_refl _
  | succ fuel ih =>
    intro w
    cases hr : w.running 0 with
    | false =>
      rw [receive_thread_stop fuel w hr]
      exact List.prefix_append _ _
    | true =>
      rw [receive_thread_step fuel w hr]
      obtain ⟨_, ev, hev, _⟩ := receive_select_events (read_running w).2
      refine List.IsPrefix.trans ?_ (ih _)
      rw [hev]
      exact List.IsPrefix.trans (List.prefix_append _ _) (List.prefix_append _ _)

/-- The first thing `receive_thread` does, given any fuel, is read `running`. -/
theorem receive_thread_rechecks (fuel : Nat) (v : World) :
    (v.trace ++ [Event.read_running (v.running 0)])
      <+: (can_communication.receive_thread (fuel + 1) v).1.trace := by
  cases hr : v.running 0 with
  | false =>
    rw [receive_thread_stop fuel v hr]
    simp [read_running, hr]
  | true =>
    rw [receive_thread_step fuel v hr]
    obtain ⟨_, ev, hev, _⟩ := receive_select_events (read_running v).2
    refine List.IsPrefix.trans ?_ (receive_thread_extends fuel _)
    rw [hev]
    have : (read_running v).2.trace = v.trace ++ [Event.read_running true] := by
      simp [read_running, hr]
    rw [this]
    exact List.prefix_append _ _

/-- C9: one turn of the select-based loop of `receive_thread`, entered because the
flag was seen set.  After the `select`: a negative result is only reported; a result
of 0 leads to nothing; a positive result with the socket marked readable leads to one
call of `receive_can_frame`, hence exactly one `read`, whatever that read returns.  In
every case the next thing the task does is read `running` again: the results of
`select` and `read` never end the loop. -/
theorem receive_loop_turn (w : World) (fuel : Nat) (hrun : w.running 0 = true) :
    ∃ ev : List Event,
      (can_communication.receive_select (read_running w).2).trace
        = w.trace ++ [Event.read_running true]
            ++ Event.select w.socket_fd 1 (w.select_ret 0).1 (w.select_ret 0).2 :: ev ∧
      (∀ e ∈ ev, e.is_flag_read = false) ∧
      ev.countP Event.is_select = 0 ∧
      ((w.select_ret 0).1 < 0 →
        ev = [Event.perror "Select error in receive thread"] ∧ ev.countP Event.is_read = 0) ∧
      ((w.select_ret 0).1 = 0 → ev = []) ∧
      (0 < (w.select_ret 0).1 ∧ (w.select_ret 0).2 = true →
        (can_communication.receive_select (read_running w).2)
          = (let r := can_communication.receive_can_frame
                ((sys_select (read_running w).2 w.socket_fd 1).2) w.socket_fd
             if r.1 = 0 then r.2.emit (Event.printf "Successfully received a frame")
             else r.2) ∧
        ev.countP Event.is_read = 1) ∧
      (w.trace ++ [Event.read_running true]
          ++ Event.select w.socket_fd 1 (w.select_ret 0).1 (w.select_ret 0).2 :: ev
          ++ [Event.read_running (w.running 1)])
        <+: (can_communication.receive_thread (fuel + 2) w).1.trace := by
  obtain ⟨hr, ev, hev, hnf, hcs, hcr⟩ := receive_select_events (read_running w).2
  have hev2 : (can_communication.receive_select (read_running w).2).trace
      = w.trace ++ [Event.read_running true]
          ++ Event.select w.socket_fd 1 (w.select_ret 0).1 (w.select_ret 0).2 :: ev := by
    rw [hev]; simp [read_running, hrun]
  refine ⟨ev, hev2, hnf, hcs, ?_, ?_, ?_, ?_⟩
  · intro hneg
    have hev3 := hev2
    simp only [can_communication.receive_select, sys_select, read_running, World.emit,
      hneg, if_true, hrun] at hev3
    have : ev = [Event.perror "Select error in receive thread"] := by
      simpa using hev3.symm
    exact ⟨this, by rw [this]; rfl⟩
  · intro hz
    have hev3 := hev2
    simp only [can_communication.receive_select, sys_select, read_running, World.emit,
      hz, hrun] at hev3
    simpa using hev3.symm
  · intro hpos
    refine ⟨?_, ?_⟩
    · have h1 : ¬ (w.select_ret 0).1 < 0 := by omega
      simp [can_communication.receive_select, sys_select, read_running, h1, hpos.1, hpos.2]
    · rw [hcr]
      have : 0 < ((read_running w).2.select_ret 0).1
          ∧ ((read_running w).2.select_ret 0).2 = true := hpos
      simp [this]
  · rw [receive_thread_step (fuel + 1) w hrun]
    have hnext := receive_thread_rechecks fuel
      (can_communication.receive_select (read_running w).2)
    rw [hr, hev2] at hnext
    exact hnext

/-- Witness for C9: the socket is readable and the read comes back short; the loop
goes on to the next check of the flag. -/
theorem receive_loop_turn_witness :
    short_read_world.running 0 = true ∧
    ∃ ev : List Event,
      (can_communication.receive_select (read_running short_read_world).2).trace
        = short_read_world.trace ++ [Event.read_running true]
            ++ Event.select short_read_world.socket_fd 1
                (short_read_world.select_ret 0).1 (short_read_world.select_ret 0).2 :: ev ∧
      (∀ e ∈ ev, e.is_flag_read = false) ∧
      ev.countP Event.is_select = 0 ∧
      ((short_read_world.select_ret 0).1 < 0 →
        ev = [Event.perror "Select error in receive thread"] ∧ ev.countP Event.is_read = 0) ∧
      ((short_read_world.select_ret 0).1 = 0 → ev = []) ∧
      (0 < (short_read_world.select_ret 0).1 ∧ (short_read_world.select_ret 0).2 = true →
        (can_communication.receive_select (read_running short_read_world).2)
          = (let r := can_communication.receive_can_frame
                ((sys_select (read_running short_read_world).2
                  short_read_world.socket_fd 1).2) short_read_world.socket_fd
             if r.1 = 0 then r.2.emit (Event.printf "Successfully received a frame")
             else r.2) ∧
        ev.countP Event.is_read = 1) ∧
      (short_read_world.trace ++ [Event.read_running true]
          ++ Event.select short_read_world.socket_fd 1
              (short_read_world.select_ret 0).1 (short_read_world.select_ret 0).2 :: ev
          ++ [Event.read_running (short_read_world.running 1)])
        <+: (can_communication.receive_thread (0 + 2) short_read_world).1.trace :=
  ⟨rfl, receive_loop_turn short_read_world 0 rfl⟩

/-! ## Failed sends -/

theorem pass_frames_spec (m : c_string) :
    (pass_frames m).length = (strlen m + 7) / 8 ∧
    ((pass_frames m).map payload).flatten = m.bytes := by
  obtain ⟨fs, h1, h2, h3, _⟩ :=
    send_chunks_pass m 0x123 m.bytes.length 0 quiet_world rfl (fun _ => rfl)
  have hq : written_frames quiet_world.trace = [] := rfl
  have : pass_frames m = fs := by
    simp only [pass_frames, can_communication.send_message, World.emit,
      written_frames_append, strlen_eq, h1, hq]
    simp [written_frames]
  rw [this, strlen_eq]
  exact ⟨by simpa using h2, by simpa using h3⟩

/-- C5: a failed send stops nothing.  `send_can_frame` returns 0 when `write` reports
the full frame size and -1 otherwise.  While the flag stays set, the frames the
raw-mode `send_thread` hands to `write` during `fuel` turns of its outer loop are the
same in any two worlds, whatever their writes return: `fuel` times the ceil(L/8)
chunks of the message, in order.  In ISO-TP mode `fuel` turns hand the 100-byte
payload to `send` exactly `fuel` times, whatever the sends return.  The task has not
returned in either mode. -/
theorem failed_send_does_not_stop_sending (message : c_string) (fuel : Nat) (w1 w2 : World)
    (h1 : ∀ i, w1.running i = true) (h2 : ∀ i, w2.running i = true) :
    (∀ (w : World) (sock : Int) (can_id : Nat) (data : List uint8_t) (len : Nat),
      (can_communication.send_can_frame w sock can_id data len).1
        = if w.write_ret 0 = sizeof_can_frame then 0 else -1) ∧
    written_frames (can_communication.send_thread message fuel w1).1.trace
      = written_frames w1.trace ++ (List.replicate fuel (pass_frames message)).flatten ∧
    written_frames (can_communication.send_thread message fuel w2).1.trace
      = written_frames w2.trace ++ (List.replicate fuel (pass_frames message)).flatten ∧
    (pass_frames message).length = (strlen message + 7) / 8 ∧
    ((pass_frames message).map payload).flatten = message.bytes ∧
    (can_communication.send_thread message fuel w1).2 = false ∧
    sent_messages (cantp_communication.send_thread fuel w1).1.trace
      = sent_messages w1.trace ++ List.replicate fuel cantp_communication.cantp_payload ∧
    sent_messages (cantp_communication.send_thread fuel w2).1.trace
      = sent_messages w2.trace ++ List.replicate fuel cantp_communication.cantp_payload ∧
    (cantp_communication.send_thread fuel w1).2 = false :=
  ⟨send_can_frame_result,
   (send_loop_frames message fuel w1 h1).2,
   (send_loop_frames message fuel w2 h2).2,
   (pass_frames_spec message).1,
   (pass_frames_spec message).2,
   (send_loop_frames message fuel w1 h1).1,
   (cantp_send_loop fuel w1 h1).2,
   (cantp_send_loop fuel w2 h2).2,
   (cantp_send_loop fuel w1 h1).1⟩

/-- Witness for C5: two turns of the loop, once with every write and send succeeding
and once with every one of them failing. -/
theorem failed_send_does_not_stop_sending_witness :
    (∀ i, quiet_world.running i = true) ∧ (∀ i, all_fail_world.running i = true) ∧
    written_frames
        (can_communication.send_thread can_communication.demo_message 2 quiet_world).1.trace
      = written_frames quiet_world.trace
          ++ (List.replicate 2 (pass_frames can_communication.demo_message)).flatten ∧
    written_frames
        (can_communication.send_thread can_communication.demo_message 2
          all_fail_world).1.trace
      = written_frames all_fail_world.trace
          ++ (List.replicate 2 (pass_frames can_communication.demo_message)).flatten ∧
    sent_messages (cantp_communication.send_thread 2 all_fail_world).1.trace
      = sent_messages all_fail_world.trace
          ++ List.replicate 2 cantp_communication.cantp_payload :=
  have h := failed_send_does_not_stop_sending can_communication.demo_message 2
    quiet_world all_fail_world (fun _ => rfl) (fun _ => rfl)
  ⟨fun _ => rfl, fun _ => rfl, h.2.1, h.2.2.1, h.2.2.2.2.2.2.2.1⟩

/-! ## Setup -/

theorem attempted_append (t u : List MainEvent) :
    attempted (t ++ u) = attempted t ++ attempted u := by
  induction t with
  | nil => rfl
  | cons e t ih => cases e <;> simp [attempted, ih]

theorem closes_append (t u : List MainEvent) :
    closes (t ++ u) = closes t ++ closes u := by
  induction t with
  | nil => rfl
  | cons e t ih => cases e <;> simp [closes, ih]

theorem perrors_append (t u : List MainEvent) :
    perrors (t ++ u) = perrors t ++ perrors u := by
  induction t with
  | nil => rfl
  | cons e t ih => cases e <;> simp [perrors, ih]

/-- The setup of the raw socket stops at the first call that fails. -/
theorem init_can_socket_spec (o : Outcomes) (p : Proc) :
    ((can_communication.init_can_socket o p).1 = 0 ↔ ∀ s ∈ can_steps, 0 ≤ o.step s) ∧
    (first_failure can_steps o = none →
      (can_communication.init_can_socket o p).1 = 0 ∧
      attempted (can_communication.init_can_socket o p).2.trace
        = attempted p.trace ++ can_steps ∧
      perrors (can_communication.init_can_socket o p).2.trace = perrors p.trace ∧
      closes (can_communication.init_can_socket o p).2.trace = closes p.trace) ∧
    (∀ s, first_failure can_steps o = some s →
      (can_communication.init_can_socket o p).1 = -1 ∧
      attempted (can_communication.init_can_socket o p).2.trace
        = attempted p.trace ++ up_to can_steps s ∧
      perrors (can_communication.init_can_socket o p).2.trace
        = perrors p.trace ++ [can_message s] ∧
      closes (can_communication.init_can_socket o p).2.trace
        = closes p.trace ++ (if s = Step.socket then [] else [o.step Step.socket])) := by
  simp only [can_communication.init_can_socket, Proc.call, Proc.emit, first_failure,
    can_steps, can_communication.USE_CAN_FILTER, if_true]
  by_cases h1 : o.step Step.socket < 0
  · simp [h1, attempted_append, closes_append, perrors_append,
      attempted, closes, perrors, List.find?, up_to, can_message]
  · by_cases h2 : o.step Step.rcvbuf < 0
    · simp [h1, h2, attempted_append, closes_append, perrors_append,
        attempted, closes, perrors, List.find?, up_to, can_message]
    · by_cases h3 : o.step Step.ifindex < 0
      · simp [h1, h2, h3, attempted_append, closes_append, perrors_append,
          attempted, closes, perrors, List.find?, up_to, can_message]
      · by_cases h4 : o.step Step.bind < 0
        · simp [h1, h2, h3, h4, attempted_append, closes_append, perrors_append,
            attempted, closes, perrors, List.find?, up_to, can_message]
        · by_cases h5 : o.step Step.filter < 0
          · simp [h1, h2, h3, h4, h5, attempted_append, closes_append, perrors_append,
              attempted, closes, perrors, List.find?, up_to, can_message]
          · by_cases h6 : o.step Step.loopback < 0
            · simp [h1, h2, h3, h4, h5, h6, attempted_append, closes_append, perrors_append,
                attempted, closes, perrors, List.find?, up_to, can_message]
            · simp [h1, h2, h3, h4, h5, h6, not_lt.1 h1, not_lt.1 h2, not_lt.1 h3,
                not_lt.1 h4, not_lt.1 h5, not_lt.1 h6, attempted_append, closes_append,
                perrors_append, attempted, closes, perrors, List.find?, up_to, can_message]

/-- The setup of the ISO-TP socket stops at the first call that fails. -/
theorem init_isotp_socket_spec (o : Outcomes) (p : Proc) :
    ((cantp_communication.init_isotp_socket o p).1 = 0
        ↔ ∀ s ∈ isotp_steps, 0 ≤ o.step s) ∧
    (first_failure isotp_steps o = none →
      (cantp_communication.init_isotp_socket o p).1 = 0 ∧
      attempted (cantp_communication.init_isotp_socket o p).2.trace
        = attempted p.trace ++ isotp_steps ∧
      perrors (cantp_communication.init_isotp_socket o p).2.trace = perrors p.trace ∧
      closes (cantp_communication.init_isotp_socket o p).2.trace = closes p.trace) ∧
    (∀ s, first_failure isotp_steps o = some s →
      (cantp_communication.init_isotp_socket o p).1 = -1 ∧
      attempted (cantp_communication.init_isotp_socket o p).2.trace
        = attempted p.trace ++ up_to isotp_steps s ∧
      perrors (cantp_communication.init_isotp_socket o p).2.trace
        = perrors p.trace ++ [isotp_message s] ∧
      closes (cantp_communication.init_isotp_socket o p).2.trace
        = closes p.trace ++ (if s = Step.socket then [] else [o.step Step.socket])) := by
  simp only [cantp_communication.init_isotp_socket, Proc.call, Proc.emit, first_failure,
    isotp_steps]
  by_cases h1 : o.step Step.socket < 0
  · simp [h1, attempted_append, closes_append, perrors_append,
      attempted, closes, perrors, List.find?, up_to, isotp_message]
  · by_cases h2 : o.step Step.rcvbuf < 0
    · simp [h1, h2, attempted_append, closes_append, perrors_append,
        attempted, closes, perrors, List.find?, up_to, isotp_message]
    · by_cases h3 : o.step Step.fc_options < 0
      · simp [h1, h2, h3, attempted_append, closes_append, perrors_append,
          attempted, closes, perrors, List.find?, up_to, isotp_message]
      · by_cases h4 : o.step Step.ifindex < 0
        · simp [h1, h2, h3, h4, attempted_append, closes_append, perrors_append,
            attempted, closes, perrors, List.find?, up_to, isotp_message]
        · by_cases h5 : o.step Step.bind < 0
          · simp [h1, h2, h3, h4, h5, attempted_append, closes_append, perrors_append,
              attempted, closes, perrors, List.find?, up_to, isotp_message]
          · simp [h1, h2, h3, h4, h5, not_lt.1 h1, not_lt.1 h2, not_lt.1 h3, not_lt.1 h4,
              not_lt.1 h5, attempted_append, closes_append, perrors_append, attempted,
              closes, perrors, List.find?, up_to, isotp_message]

/-- C6 as stated fails: the value returned does not tell the failing step.  When the
receive-buffer call fails and when `bind` fails, both setup functions return the same
-1, so no function of the returned value recovers the step. -/
theorem setup_return_value_hides_step :
    first_failure can_steps (failing_at Step.rcvbuf) = some Step.rcvbuf ∧
    first_failure can_steps (failing_at Step.bind) = some Step.bind ∧
    (can_communication.init_can_socket (failing_at Step.rcvbuf) Proc.init).1
      = (can_communication.init_can_socket (failing_at Step.bind) Proc.init).1 ∧
    first_failure isotp_steps (failing_at Step.rcvbuf) = some Step.rcvbuf ∧
    first_failure isotp_steps (failing_at Step.bind) = some Step.bind ∧
    (cantp_communication.init_isotp_socket (failing_at Step.rcvbuf) Proc.init).1
      = (cantp_communication.init_isotp_socket (failing_at Step.bind) Proc.init).1 ∧
    ¬ ∃ identify : Int → Step, ∀ s ∈ can_steps,
        identify (can_communication.init_can_socket (failing_at s) Proc.init).1 = s := by
  refine ⟨by decide, by decide, by decide, by decide, by decide, by decide, ?_⟩
  rintro ⟨identify, h⟩
  have h1 := h Step.rcvbuf (by decide)
  have h2 := h Step.bind (by decide)
  have e1 : (can_communication.init_can_socket (failing_at Step.rcvbuf) Proc.init).1 = -1 := by
    decide
  have e2 : (can_communication.init_can_socket (failing_at Step.bind) Proc.init).1 = -1 := by
    decide
  rw [e1] at h1
  rw [e2] at h2
  rw [h1] at h2
  cases h2

/-- C6, amended: both setup functions return 0 exactly when every setup call
succeeds.  When a call fails, no later call is made, the function returns -1 whichever
call it was, `perror` is called once with the text of that call, texts of different
calls differ, and the descriptor is closed once, or not at all when it was `socket`
that failed. -/
theorem setup_aborts_at_first_failure (o : Outcomes) (p : Proc) :
    (((can_communication.init_can_socket o p).1 = 0 ↔ ∀ s ∈ can_steps, 0 ≤ o.step s) ∧
     (first_failure can_steps o = none →
       (can_communication.init_can_socket o p).1 = 0 ∧
       attempted (can_communication.init_can_socket o p).2.trace
         = attempted p.trace ++ can_steps ∧
       perrors (can_communication.init_can_socket o p).2.trace = perrors p.trace ∧
       closes (can_communication.init_can_socket o p).2.trace = closes p.trace) ∧
     (∀ s, first_failure can_steps o = some s →
       (can_communication.init_can_socket o p).1 = -1 ∧
       attempted (can_communication.init_can_socket o p).2.trace
         = attempted p.trace ++ up_to can_steps s ∧
       perrors (can_communication.init_can_socket o p).2.trace
         = perrors p.trace ++ [can_message s] ∧
       closes (can_communication.init_can_socket o p).2.trace
         = closes p.trace ++ (if s = Step.socket then [] else [o.step Step.socket]))) ∧
    (((cantp_communication.init_isotp_socket o p).1 = 0
        ↔ ∀ s ∈ isotp_steps, 0 ≤ o.step s) ∧
     (first_failure isotp_steps o = none →
       (cantp_communication.init_isotp_socket o p).1 = 0 ∧
       attempted (cantp_communication.init_isotp_socket o p).2.trace
         = attempted p.trace ++ isotp_steps ∧
       perrors (cantp_communication.init_isotp_socket o p).2.trace = perrors p.trace ∧
       closes (cantp_communication.init_isotp_socket o p).2.trace = closes p.trace) ∧
     (∀ s, first_failure isotp_steps o = some s →
       (cantp_communication.init_isotp_socket o p).1 = -1 ∧
       attempted (cantp_communication.init_isotp_socket o p).2.trace
         = attempted p.trace ++ up_to isotp_steps s ∧
       perrors (cantp_communication.init_isotp_socket o p).2.trace
         = perrors p.trace ++ [isotp_message s] ∧
       closes (cantp_communication.init_isotp_socket o p).2.trace
         = closes p.trace ++ (if s = Step.socket then [] else [o.step Step.socket]))) ∧
    (∀ s ∈ can_steps, ∀ t ∈ can_steps, can_message s = can_message t → s = t) ∧
    (∀ s ∈ isotp_steps, ∀ t ∈ isotp_steps, isotp_message s = isotp_message t → s = t) :=
  ⟨init_can_socket_spec o p, init_isotp_socket_spec o p, by decide, by decide⟩

/-! ## Teardown in `main` -/

/-- The function `main` of can_communication.c closes the socket once, after joining
every task it started. -/
theorem can_main_teardown (o : Outcomes) :
    closes (can_communication.main o).2.trace
      = (if 0 ≤ o.step Step.socket then [o.step Step.socket] else []) ∧
    (∀ task, MainEvent.pthread_create task 0 ∈ (can_communication.main o).2.trace →
      MainEvent.pthread_join task ∈ before_first_close (can_communication.main o).2.trace) ∧
    (first_failure can_steps o = none → o.create_send = 0 → o.create_receive ≠ 0 →
      (can_communication.main o).1 = 1 ∧
      [MainEvent.pthread_create Thread.receive_tid o.create_receive,
       MainEvent.perror "Failed to create receive thread",
       MainEvent.clear_running,
       MainEvent.pthread_join Thread.send_tid,
       MainEvent.close (o.step Step.socket),
       MainEvent.system "sudo ip link set can0 down"]
        <:+ (can_communication.main o).2.trace) := by
  simp only [can_communication.main, can_communication.init_can_socket, Proc.call,
    Proc.emit, Proc.init, first_failure, can_steps]
  by_cases h1 : o.step Step.socket < 0
  · have h0 : ¬ 0 ≤ o.step Step.socket := by omega
    refine ⟨?_, ?_, ?_⟩
    · simp [h1, h0, closes]
    · intro task; cases task <;> simp [h1]
    · simp [h1, List.find?]
  · have h0 : 0 ≤ o.step Step.socket := by omega
    by_cases h2 : o.step Step.rcvbuf < 0
    · refine ⟨?_, ?_, ?_⟩
      · simp [h1, h2, h0, closes]
      · intro task; cases task <;> simp [h1, h2]
      · simp [h1, h2, List.find?]
    · by_cases h3 : o.step Step.ifindex < 0
      · refine ⟨?_, ?_, ?_⟩
        · simp [h1, h2, h3, h0, closes]
        · intro task; cases task <;> simp [h1, h2, h3]
        · simp [h1, h2, h3, List.find?]
      · by_cases h4 : o.step Step.bind < 0
        · refine ⟨?_, ?_, ?_⟩
          · simp [h1, h2, h3, h4, h0, closes]
          · intro task; cases task <;> simp [h1, h2, h3, h4]
          · simp [h1, h2, h3, h4, List.find?]
        · by_cases h5 : o.step Step.filter < 0
          · refine ⟨?_, ?_, ?_⟩
            · simp [h1, h2, h3, h4, h5, h0, closes]
            · intro task; cases task <;> simp [h1, h2, h3, h4, h5]
            · simp [h1, h2, h3, h4, h5, List.find?]
          · by_cases h6 : o.step Step.loopback < 0
            · refine ⟨?_, ?_, ?_⟩
              · simp [h1, h2, h3, h4, h5, h6, h0, closes]
              · intro task; cases task <;> simp [h1, h2, h3, h4, h5, h6]
              · simp [h1, h2, h3, h4, h5, h6, List.find?]
            · by_cases hc : o.create_send = 0
              · by_cases hr : o.create_receive = 0
                · refine ⟨?_, ?_, ?_⟩
                  · simp [h1, h2, h3, h4, h5, h6, h0, hc, hr, closes]
                  · intro task; cases task <;>
                      simp [h1, h2, h3, h4, h5, h6, hc, hr, before_first_close,
                        MainEvent.is_close, List.takeWhile]
                  · simp [hr]
                · have hr2 : ¬ 0 = o.create_receive := fun h => hr h.symm
                  refine ⟨?_, ?_, ?_⟩
                  · simp [h1, h2, h3, h4, h5, h6, h0, hc, hr, closes]
                  · intro task; cases task <;>
                      simp [h1, h2, h3, h4, h5, h6, hc, hr, hr2, before_first_close,
                        MainEvent.is_close, List.takeWhile]
                  · intro _ _ _
                    simp [h1, h2, h3, h4, h5, h6, hc, hr, List.suffix_iff_eq_drop]
              · have hc2 : ¬ 0 = o.create_send := fun h => hc h.symm
                refine ⟨?_, ?_, ?_⟩
                · simp [h1, h2, h3, h4, h5, h6, h0, hc, closes]
                · intro task; cases task <;>
                    simp [h1, h2, h3, h4, h5, h6, hc, hc2, before_first_close,
                      MainEvent.is_close, List.takeWhile]
                · intro _ h; exact absurd h hc

/-- The function `main` of cantp_communication.c closes the socket once, after joining
every task it started. -/
theorem cantp_main_teardown (o : Outcomes) :
    closes (cantp_communication.main o).2.trace
      = (if 0 ≤ o.step Step.socket then [o.step Step.socket] else []) ∧
    (∀ task, MainEvent.pthread_create task 0 ∈ (cantp_communication.main o).2.trace →
      MainEvent.pthread_join task ∈ before_first_close (cantp_communication.main o).2.trace) ∧
    (first_failure isotp_steps o = none → o.create_send = 0 → o.create_receive ≠ 0 →
      (cantp_communication.main o).1 = 1 ∧
      [MainEvent.pthread_create Thread.receive_tid o.create_receive,
       MainEvent.perror "Failed to create receive thread",
       MainEvent.clear_running,
       MainEvent.pthread_join Thread.send_tid,
       MainEvent.close (o.step Step.socket),
       MainEvent.system "sudo ip link set can0 down"]
        <:+ (cantp_communication.main o).2.trace) := by
  simp only [cantp_communication.main, cantp_communication.init_isotp_socket, Proc.call,
    Proc.emit, Proc.init, first_failure, isotp_steps]
  by_cases h1 : o.step Step.socket < 0
  · have h0 : ¬ 0 ≤ o.step Step.socket := by omega
    refine ⟨?_, ?_, ?_⟩
    · simp [h1, h0, closes]
    · intro task; cases task <;> simp [h1]
    · simp [h1, List.find?]
  · have h0 : 0 ≤ o.step Step.socket := by omega
    by_cases h2 : o.step Step.rcvbuf < 0
    · refine ⟨?_, ?_, ?_⟩
      · simp [h1, h2, h0, closes]
      · intro task; cases task <;> simp [h1, h2]
      · simp [h1, h2, List.find?]
    · by_cases h3 : o.step Step.fc_options < 0
      · refine ⟨?_, ?_, ?_⟩
        · simp [h1, h2, h3, h0, closes]
        · intro task; cases task <;> simp [h1, h2, h3]
        · simp [h1, h2, h3, List.find?]
      · by_cases h4 : o.step Step.ifindex < 0
        · refine ⟨?_, ?_, ?_⟩
          · simp [h1, h2, h3, h4, h0, closes]
          · intro task; cases task <;> simp [h1, h2, h3, h4]
          · simp [h1, h2, h3, h4, List.find?]
        · by_cases h5 : o.step Step.bind < 0
          · refine ⟨?_, ?_, ?_⟩
            · simp [h1, h2, h3, h4, h5, h0, closes]
            · intro task; cases task <;> simp [h1, h2, h3, h4, h5]
            · simp [h1, h2, h3, h4, h5, List.find?]
          · by_cases hc : o.create_send = 0
            · by_cases hr : o.create_receive = 0
              · refine ⟨?_, ?_, ?_⟩
                · simp [h1, h2, h3, h4, h5, h0, hc, hr, closes]
                · intro task; cases task <;>
                    simp [h1, h2, h3, h4, h5, hc, hr, before_first_close, MainEvent.is_close,
                      List.takeWhile]
                · simp [hr]
              · have hr2 : ¬ 0 = o.create_receive := fun h => hr h.symm
                refine ⟨?_, ?_, ?_⟩
                · simp [h1, h2, h3, h4, h5, h0, hc, hr, closes]
                · intro task; cases task <;>
                    simp [h1, h2, h3, h4, h5, hc, hr, hr2, before_first_close,
                      MainEvent.is_close, List.takeWhile]
                · intro _ _ _
                  simp [h1, h2, h3, h4, h5, hc, hr, List.suffix_iff_eq_drop]
            · have hc2 : ¬ 0 = o.create_send := fun h => hc h.symm
              refine ⟨?_, ?_, ?_⟩
              · simp [h1, h2, h3, h4, h5, h0, hc, closes]
              · intro task; cases task <;>
                  simp [h1, h2, h3, h4, h5, hc, hc2, before_first_close, MainEvent.is_close,
                    List.takeWhile]
              · intro _ h; exact absurd h hc

/-- C7: on every path of `main`, in both programs, the socket is closed exactly once
when `socket` returned a descriptor and never otherwise, and every task whose
`pthread_create` returned 0 has been joined before that `close`.  When the receiving
task cannot be created, `main` reports it, clears `running`, joins the sending task,
closes the socket and only then takes the interface down, exiting with status 1. -/
theorem socket_closed_once_after_joins (o : Outcomes) :
    (closes (can_communication.main o).2.trace
        = (if 0 ≤ o.step Step.socket then [o.step Step.socket] else []) ∧
     (∀ task, MainEvent.pthread_create task 0 ∈ (can_communication.main o).2.trace →
       MainEvent.pthread_join task
         ∈ before_first_close (can_communication.main o).2.trace) ∧
     (first_failure can_steps o = none → o.create_send = 0 → o.create_receive ≠ 0 →
       (can_communication.main o).1 = 1 ∧
       [MainEvent.pthread_create Thread.receive_tid o.create_receive,
        MainEvent.perror "Failed to create receive thread",
        MainEvent.clear_running,
        MainEvent.pthread_join Thread.send_tid,
        MainEvent.close (o.step Step.socket),
        MainEvent.system "sudo ip link set can0 down"]
         <:+ (can_communication.main o).2.trace)) ∧
    (closes (cantp_communication.main o).2.trace
        = (if 0 ≤ o.step Step.socket then [o.step Step.socket] else []) ∧
     (∀ task, MainEvent.pthread_create task 0 ∈ (cantp_communication.main o).2.trace →
       MainEvent.pthread_join task
         ∈ before_first_close (cantp_communication.main o).2.trace) ∧
     (first_failure isotp_steps o = none → o.create_send = 0 → o.create_receive ≠ 0 →
       (cantp_communication.main o).1 = 1 ∧
       [MainEvent.pthread_create Thread.receive_tid o.create_receive,
        MainEvent.perror "Failed to create receive thread",
        MainEvent.clear_running,
        MainEvent.pthread_join Thread.send_tid,
        MainEvent.close (o.step Step.socket),
        MainEvent.system "sudo ip link set can0 down"]
         <:+ (cantp_communication.main o).2.trace)) :=
  ⟨can_main_teardown o, cantp_main_teardown o⟩

/-- Witness for C7 on the path where the receiving task cannot be created: both
programs end with the join of the sending task followed by the one `close`. -/
theorem socket_closed_once_after_joins_witness :
    first_failure can_steps (receiver_fails 11) = none ∧
    first_failure isotp_steps (receiver_fails 11) = none ∧
    closes (can_communication.main (receiver_fails 11)).2.trace = [3] ∧
    closes (cantp_communication.main (receiver_fails 11)).2.trace = [3] ∧
    (can_communication.main (receiver_fails 11)).1 = 1 ∧
    [MainEvent.pthread_create Thread.receive_tid 11,
     MainEvent.perror "Failed to create receive thread",
     MainEvent.clear_running,
     MainEvent.pthread_join Thread.send_tid,
     MainEvent.close 3,
     MainEvent.system "sudo ip link set can0 down"]
      <:+ (can_communication.main (receiver_fails 11)).2.trace :=
  have h := socket_closed_once_after_joins (receiver_fails 11)
  ⟨by decide, by decide, h.1.1, h.2.1,
    (h.1.2.2 (by decide) rfl (by decide)).1, (h.1.2.2 (by decide) rfl (by decide)).2⟩
